import Mathlib

/-!
# Verification of the recursive ray tracer (`RayTracer.cpp`, `RayTracer.h`)

A shallow embedding of `RayTracer::CalculateDiffuse`, `RayTracer::CalculateSpecular`,
`RayTracer::CalculateLighting`, `RayTracer::TraceScene`, `RayTracer::DoRayTrace` and the two
constructors, followed by theorems about them.

Conventions of the embedding.

* `double`/`float` values are idealised as exact rationals (`ℚ`); infinities and NaN are not
  represented, and rounding is not represented either, with one exception: the addition with
  which `CalculateLighting` accumulates the contributions of the lights is a parameter
  (`Externals.fadd`), because the order of that accumulation matters to what is proved. The
  literals `0.3f`, `0.1`, `0.0001`, `-3.5f`, `0.5`, `2.0` are the rationals they denote in
  decimal.
* `int` values are `Int`. The conversion `double → int` truncates toward zero while the
  truncated value fits a 32-bit `int`; outside that range it is undefined in C++ and the
  embedding returns `INT_MIN`.
* `TraceScene` takes its ray by reference and overwrites it; the embedding returns the final
  value of the ray together with the colour.
* `TraceScene` is recursive and the source never tests `tracelevel`, so the embedding is
  indexed by a bound on the depth of the call stack: `none` means that the bound was exceeded.
* Every recursive `TraceScene` call is recorded, in program order, in the result.
* `Vector3`, `Ray`, `RayHitResult`, `Light`, `Material`, `Primitive`, `Camera`, `Scene` and
  `Framebuffer` are declared in headers outside `RayTracer.cpp`/`RayTracer.h`; what the tracer
  uses of them is modelled below, and the operations whose bodies are not rational functions
  (or whose convention is not fixed by the tracer) are parameters, collected in `Externals`.
-/

namespace Raytracer3D

/-! ## Data model -/

/-- Modelled from the spec: `Vector3`, three scalars, indexed `[0]`, `[1]`, `[2]` in the source. -/
structure Vector3 where
  x : ℚ
  y : ℚ
  z : ℚ
deriving DecidableEq, Repr

/-- Modelled from the spec: `Colour`, three channels with component-wise add and
scalar/component multiply; the source assigns a `Vector3` to a `Colour`. -/
abbrev Colour := Vector3

namespace Vector3

/-- Modelled from the spec: `Vector3::operator+`, component-wise. -/
def add (a b : Vector3) : Vector3 := ⟨a.x + b.x, a.y + b.y, a.z + b.z⟩

/-- Modelled from the spec: `Vector3::operator-`, component-wise. -/
def sub (a b : Vector3) : Vector3 := ⟨a.x - b.x, a.y - b.y, a.z - b.z⟩

/-- Modelled from the spec: `Vector3::operator*(double)`, scaling of every component. -/
def scale (a : Vector3) (k : ℚ) : Vector3 := ⟨a.x * k, a.y * k, a.z * k⟩

/-- Modelled from the spec: `Vector3::operator*(const Vector3&)`, component-wise product
(the "component multiply" of colours). -/
def mul (a b : Vector3) : Vector3 := ⟨a.x * b.x, a.y * b.y, a.z * b.z⟩

/-- Modelled from the spec: `Vector3::operator+` with the addition of the components given:
`f` stands for the addition of the floating-point type of the components. -/
def addWith (f : ℚ → ℚ → ℚ) (a b : Vector3) : Vector3 := ⟨f a.x b.x, f a.y b.y, f a.z b.z⟩

/-- Modelled from the spec: `Vector3::DotProduct`. -/
def DotProduct (a b : Vector3) : ℚ := a.x * b.x + a.y * b.y + a.z * b.z

end Vector3

/-- Modelled from the spec: `Ray`, an origin (`GetRayStart`) and a direction (`GetRay`). -/
structure Ray where
  start : Vector3
  direction : Vector3
deriving DecidableEq, Repr

/-- Modelled from the spec: `Ray::SetRay(start, direction)` overwrites both fields. -/
def Ray.SetRay (_r : Ray) (start direction : Vector3) : Ray := ⟨start, direction⟩

/-- Modelled from the spec: `Material`, ambient, diffuse and specular colour and the
specular exponent. -/
structure Material where
  ambient : Colour
  diffuse : Colour
  specular : Colour
  specPower : ℚ
deriving DecidableEq, Repr

/-- Modelled from the spec: `Primitive::PRIMTYPE`, the discriminant separating the plane from
the other shapes. -/
inductive PRIMTYPE where
  | PRIMTYPE_Plane
  | PRIMTYPE_Sphere
  | PRIMTYPE_Triangle
  | PRIMTYPE_Box
deriving DecidableEq, Repr

/-- Modelled from the spec: `Primitive`, as far as the tracer reads it (`m_primtype`,
`GetMaterial`). -/
structure Primitive where
  m_primtype : PRIMTYPE
  material : Material
deriving DecidableEq, Repr

/-- Modelled from the spec: `Light`, a position and a colour. -/
structure Light where
  position : Vector3
  colour : Colour
deriving DecidableEq, Repr

/-- Modelled from the spec: `RayHitResult`; `data` is the pointer to the primitive that was hit,
null (`none`) when nothing was hit. -/
structure RayHitResult where
  point : Vector3
  normal : Vector3
  data : Option Primitive
deriving DecidableEq, Repr

/-- Modelled from the spec: `Camera`, as far as the tracer reads it. -/
structure Camera where
  right : Vector3
  up : Vector3
  view : Vector3
  viewCentre : Vector3
  position : Vector3
deriving DecidableEq, Repr

/-- Modelled from the spec: `Scene`, as far as the tracer reads it; `IntersectByRay` is the
intersection provider, an arbitrary function of the ray and the shadow-ray flag. -/
structure Scene where
  IntersectByRay : Ray → Bool → RayHitResult
  lightList : List Light
  camera : Camera
  backgroundColour : Colour
  sceneWidth : ℚ
  sceneHeight : ℚ

/-- Operations used by the tracer whose bodies lie outside `RayTracer.cpp`: `Vector3::Normalise`,
`Vector3::Reflect`, `pow` from `<math.h>`, the value of a default-constructed `Light`, and
`fadd`, the floating-point addition of two colour components with which `CalculateLighting`
accumulates the contributions of the lights (an addition followed by a rounding, so it need
not be associative). (`Vector3::Norm` is used only for the attenuation factor, which the
source computes and never applies.) -/
structure Externals where
  Normalise : Vector3 → Vector3
  Reflect : Vector3 → Vector3 → Vector3
  pow : ℚ → ℚ → ℚ
  defaultLight : Light
  fadd : ℚ → ℚ → ℚ

/-! ## Trace flags (`RayTracer::TraceFlags`) -/

def TRACE_AMBIENT : Nat := 0x1
def TRACE_DIFFUSE_AND_SPEC : Nat := 0x1 <<< 1
def TRACE_SHADOW : Nat := 0x1 <<< 2
def TRACE_REFLECTION : Nat := 0x1 <<< 3
def TRACE_REFRACTION : Nat := 0x1 <<< 4

/-- The C++ test `if (m_traceflag & FLAG)`. -/
def flagSet (m_traceflag flag : Nat) : Bool := (m_traceflag &&& flag) != 0

/-! ## Shading (`CalculateDiffuse`, `CalculateSpecular`, `CalculateLighting`) -/

/-- The least value of a C++ `int` (32 bits). -/
def INT_MIN : Int := -2147483648

/-- The greatest value of a C++ `int` (32 bits). -/
def INT_MAX : Int := 2147483647

/-- Truncation of a rational toward zero. -/
def truncate (d : ℚ) : Int := Int.tdiv d.num (d.den : Int)

/-- The C++ conversion `double → int`: truncation toward zero when the truncated value fits
an `int`. Outside that range the conversion is undefined in C++; the embedding returns
`INT_MIN` there (what the x86 conversion instruction produces), and every theorem that depends
on the converted value assumes the range. -/
def toInt (d : ℚ) : Int :=
  let t := truncate d
  if INT_MIN ≤ t ∧ t ≤ INT_MAX then t else INT_MIN

/-- The C++ truth value of `dx % 2`: the remainder has the sign of `dx`, and any non-zero
remainder counts as true. -/
def oddInt (dx : Int) : Bool := Int.tmod dx 2 != 0

/-- `RayTracer::CalculateDiffuse`. -/
def CalculateDiffuse (surfaceNorm lightDirection : Vector3) (light : Light)
    (material : Material) : Colour :=
  let angle := surfaceNorm.DotProduct lightDirection
  (light.colour.mul material.diffuse).scale angle

/-- `RayTracer::CalculateSpecular`. -/
def CalculateSpecular (E : Externals) (surfaceNorm _surfaceIntersect lightPos : Vector3)
    (light : Light) (material : Material) : Colour :=
  let reflectVect := E.Normalise (E.Reflect lightPos surfaceNorm)
  let angle := reflectVect.DotProduct surfaceNorm
  let specCoefficient := E.pow angle material.specPower
  (light.colour.mul material.specular).scale specCoefficient

/-- The `while (lit_iter != lights->end())` loop of `CalculateLighting`: for each light in
turn, the diffuse and then the specular term of a default-constructed `Light` are added. The
locals `distance` and `attenuation` are computed and not used (the line applying them is
commented out), so they do not appear. -/
def lightingLoop (E : Externals) (mat : Material) (hitresult : RayHitResult) :
    List Light → Colour → Colour
  | [], outcolour => outcolour
  | lit :: rest, outcolour =>
    let lightPosition := lit.position
    let currentLight := E.defaultLight
    let surfaceNormal := hitresult.normal
    let surfaceIntersect := hitresult.point
    let outcolour1 := outcolour.addWith E.fadd
      (CalculateDiffuse surfaceNormal (E.Normalise (lightPosition.sub surfaceIntersect))
        currentLight mat)
    let outcolour2 := outcolour1.addWith E.fadd
      (CalculateSpecular E surfaceNormal surfaceIntersect lightPosition currentLight mat)
    lightingLoop E mat hitresult rest outcolour2

/-- The fixed dark grey `Vector3(0.1, 0.1, 0.1)` of the grid pattern. -/
def darkGrey : Colour := ⟨1/10, 1/10, 1/10⟩

/-- The block "Generate the grid pattern on the plane" of `CalculateLighting`: the colour it
returns for a plane hit at `point`. -/
def gridPattern (mat : Material) (point : Vector3) : Colour :=
  let dx := toInt (point.x / 2)
  let dy := toInt (point.y / 2)
  let dz := toInt (point.z / 2)
  if oddInt dx || oddInt dy || oddInt dz then
    darkGrey
  else
    mat.diffuse

/-- `RayTracer::CalculateLighting`. The result is `none` when `hitresult->data` is null (the
source dereferences it unconditionally). -/
def CalculateLighting (E : Externals) (m_traceflag : Nat) (lights : List Light)
    (_campos : Vector3) (hitresult : RayHitResult) : Option Colour :=
  match hitresult.data with
  | none => none
  | some prim =>
    let mat := prim.material
    let outcolour := mat.ambient
    if prim.m_primtype = PRIMTYPE.PRIMTYPE_Plane then
      some (gridPattern mat hitresult.point)
    else if flagSet m_traceflag TRACE_DIFFUSE_AND_SPEC then
      some (lightingLoop E mat hitresult lights outcolour)
    else
      some outcolour

/-! ## Recursive tracer (`TraceScene`) -/

/-- One recursive `TraceScene` call: its arguments, and how deeply it is nested below the
invocation that is being observed (`0` for a call made by that invocation itself). -/
structure Call where
  ray : Ray
  incolour : Colour
  tracelevel : Int
  shadowray : Bool
  depth : Nat
deriving DecidableEq, Repr

/-- Result of a `TraceScene` invocation that returned: the colour, the final value of the
by-reference ray, and the recursive calls made (transitively), in program order. -/
structure TraceOut where
  colour : Colour
  ray : Ray
  calls : List Call
deriving DecidableEq, Repr

/-- The locals of `TraceScene` that the recursive steps update. -/
structure Frame where
  ray : Ray
  outcolour : Colour
  tracelevel : Int
  calls : List Call
deriving DecidableEq, Repr

/-- The calls of a callee, seen from the caller: one level deeper. -/
def nested (cs : List Call) : List Call := cs.map (fun c => { c with depth := c.depth + 1 })

/-- The reflection block of `TraceScene` (`if (m_traceflag & TRACE_REFLECTION) ...`); `trace` is
the recursive `TraceScene`. The argument `tracelevel--` passes the current value and decrements
the local afterwards. -/
def reflectionStep (E : Externals) (m_traceflag : Nat) (scene : Scene)
    (trace : Ray → Colour → Int → Bool → Option TraceOut)
    (result : RayHitResult) (prim : Primitive) (shadowray : Bool) (fr : Frame) : Option Frame :=
  if flagSet m_traceflag TRACE_REFLECTION then
    if prim.m_primtype ≠ PRIMTYPE.PRIMTYPE_Plane then
      let cameraPosition := scene.camera.position
      let cameraView := scene.camera.view
      let value : ℚ := (-7/2) * cameraPosition.DotProduct cameraView
      let viewDir := cameraPosition
      let reflectDir := viewDir.add ((E.Reflect fr.ray.direction result.normal).scale value)
      let ray := fr.ray.SetRay result.point reflectDir
      match trace ray fr.outcolour fr.tracelevel shadowray with
      | none => none
      | some r =>
        some { ray := r.ray
               outcolour := fr.outcolour.mul r.colour
               tracelevel := fr.tracelevel - 1
               calls := fr.calls ++
                 (⟨ray, fr.outcolour, fr.tracelevel, shadowray, 0⟩ :: nested r.calls) }
    else some fr
  else some fr

/-- The shadow ray that the shadow block builds for one light at the hit point `point`
(the three statements `direction = ...`, `l = ...`, `ray.SetRay(l, direction)`). -/
def shadowRayFor (E : Externals) (point : Vector3) (lit : Light) : Ray :=
  let direction := E.Normalise (lit.position.sub point)
  let l := point.add (direction.scale (1/10000))
  ⟨l, direction⟩

/-- The `while (lit_iter != light_list->end())` loop of the shadow block of `TraceScene`. -/
def shadowLoop (E : Externals) (trace : Ray → Colour → Int → Bool → Option TraceOut)
    (result : RayHitResult) : List Light → Frame → Option Frame
  | [], fr => some fr
  | lit :: rest, fr =>
    let direction := E.Normalise (lit.position.sub result.point)
    let l := result.point.add (direction.scale (1/10000))
    let ray := fr.ray.SetRay l direction
    match trace ray fr.outcolour fr.tracelevel true with
    | none => none
    | some r =>
      shadowLoop E trace result rest
        { ray := r.ray
          outcolour := r.colour
          tracelevel := fr.tracelevel - 1
          calls := fr.calls ++ (⟨ray, fr.outcolour, fr.tracelevel, true, 0⟩ :: nested r.calls) }

/-- The shadow block of `TraceScene` (`if (m_traceflag & TRACE_SHADOW) ...`). -/
def shadowStep (E : Externals) (m_traceflag : Nat) (scene : Scene)
    (trace : Ray → Colour → Int → Bool → Option TraceOut)
    (result : RayHitResult) (fr : Frame) : Option Frame :=
  if flagSet m_traceflag TRACE_SHADOW then
    shadowLoop E trace result scene.lightList fr
  else some fr

/-- `RayTracer::TraceScene`, for a tracer whose flags are `m_traceflag`. The first `Nat` bounds
the depth of the call stack: an invocation needs one unit for itself and hands the rest to the
calls it makes; `none` means the bound was exceeded. The block
`if (m_traceflag & TRACE_REFRACTION) { }` is empty in the source. -/
def TraceScene (E : Externals) (m_traceflag : Nat) (scene : Scene) :
    Nat → Ray → Colour → Int → Bool → Option TraceOut
  | 0 => fun _ _ _ _ => none
  | stack + 1 => fun ray incolour tracelevel shadowray =>
    let outcolour := incolour
    let light_list := scene.lightList
    let result := scene.IntersectByRay ray shadowray
    match result.data with
    | some prim =>
      let start := ray.start
      if !shadowray then
        match CalculateLighting E m_traceflag light_list start result with
        | none => none
        | some lit =>
          match reflectionStep E m_traceflag scene (TraceScene E m_traceflag scene stack)
              result prim shadowray ⟨ray, lit, tracelevel, []⟩ with
          | none => none
          | some fr1 =>
            match shadowStep E m_traceflag scene (TraceScene E m_traceflag scene stack)
                result fr1 with
            | none => none
            | some fr2 => some ⟨fr2.outcolour, fr2.ray, fr2.calls⟩
      else
        some ⟨outcolour.scale (3/10), ray, []⟩
    | none => some ⟨outcolour, ray, []⟩

/-! ## Frame driver (`RayTracer` state, constructors, `DoRayTrace`) -/

/-- One `WriteRGBToFramebuffer(colour, x, y)` call. -/
structure PixelWrite where
  colour : Colour
  x : Int
  y : Int
deriving DecidableEq, Repr

/-- Modelled from the spec: `Framebuffer`, sized `width × height` at construction and produced
into by `WriteRGBToFramebuffer(colour, column, row)`; it is represented by its size and the
sequence of writes it has received. -/
structure Framebuffer where
  width : Int
  height : Int
  writes : List PixelWrite
deriving DecidableEq, Repr

/-- Modelled from the spec: `Framebuffer::WriteRGBToFramebuffer(colour, x, y)`. -/
def Framebuffer.WriteRGBToFramebuffer (fb : Framebuffer) (colour : Colour) (x y : Int) :
    Framebuffer :=
  { fb with writes := fb.writes ++ [⟨colour, x, y⟩] }

/-- The data members of `class RayTracer`. `m_framebuffer` is `none` while the pointer has
not been assigned. -/
structure RayTracer where
  m_framebuffer : Option Framebuffer
  m_buffWidth : Int
  m_buffHeight : Int
  m_renderCount : Int
  m_traceLevel : Int
  m_traceflag : Nat
deriving DecidableEq, Repr

/-- `RayTracer::SetTraceLevel`. -/
def RayTracer.SetTraceLevel (rt : RayTracer) (level : Int) : RayTracer :=
  { rt with m_traceLevel := level }

/-- `RayTracer::ResetRenderCount`. -/
def RayTracer.ResetRenderCount (rt : RayTracer) : RayTracer :=
  { rt with m_renderCount := 0 }

/-- `RayTracer::RayTracer()`: the framebuffer pointer is left unassigned. -/
def RayTracer.ctor : RayTracer :=
  { m_framebuffer := none
    m_buffWidth := 0
    m_buffHeight := 0
    m_renderCount := 0
    m_traceLevel := 5
    m_traceflag := TRACE_AMBIENT ||| TRACE_DIFFUSE_AND_SPEC ||| TRACE_SHADOW |||
      TRACE_REFLECTION ||| TRACE_REFRACTION }

/-- `RayTracer::RayTracer(int Width, int Height)`. -/
def RayTracer.ctorWH (Width Height : Int) : RayTracer :=
  { m_framebuffer := some ⟨Width, Height, []⟩
    m_buffWidth := Width
    m_buffHeight := Height
    m_renderCount := 0
    m_traceLevel := 5
    m_traceflag := TRACE_AMBIENT }

/-- The loop `for (int k = 0; k < n; k += 1) body(k)` over a state, where the body may fail. -/
def forLoop {σ : Type} (n : Int) (body : Int → σ → Option σ) (s : σ) : Option σ :=
  (List.range n.toNat).foldlM (fun (st : σ) (k : Nat) => body (k : Int) st) s

/-- What the pixel loops of `DoRayTrace` update: the framebuffer behind `m_framebuffer`, and
the record of the `TraceScene` invocations made so far. -/
structure RenderState where
  fb : Option Framebuffer
  traces : List Call
deriving DecidableEq, Repr

/-- The vector `start` of `DoRayTrace`: the corner of the view plane. -/
def viewStart (scene : Scene) : Vector3 :=
  let cam := scene.camera
  let sceneWidth := scene.sceneWidth
  let sceneHeight := scene.sceneHeight
  ⟨cam.viewCentre.x - ((sceneWidth * cam.right.x) + (sceneHeight * cam.up.x)) / 2,
   cam.viewCentre.y - ((sceneWidth * cam.right.y) + (sceneHeight * cam.up.y)) / 2,
   cam.viewCentre.z - ((sceneWidth * cam.right.z) + (sceneHeight * cam.up.z)) / 2⟩

/-- The vector `pixel` of `DoRayTrace` for row `i` and column `j`. -/
def pixelCentre (rt : RayTracer) (scene : Scene) (i j : Int) : Vector3 :=
  let camRightVector := scene.camera.right
  let camUpVector := scene.camera.up
  let pixelDX := scene.sceneWidth / (rt.m_buffWidth : ℚ)
  let pixelDY := scene.sceneHeight / (rt.m_buffHeight : ℚ)
  let start := viewStart scene
  ⟨start.x + ((i : ℚ) + 1/2) * camUpVector.x * pixelDY + ((j : ℚ) + 1/2) * camRightVector.x * pixelDX,
   start.y + ((i : ℚ) + 1/2) * camUpVector.y * pixelDY + ((j : ℚ) + 1/2) * camRightVector.y * pixelDX,
   start.z + ((i : ℚ) + 1/2) * camUpVector.z * pixelDY + ((j : ℚ) + 1/2) * camRightVector.z * pixelDX⟩

/-- The first-generation view ray of `DoRayTrace` for row `i` and column `j`. -/
def viewRay (E : Externals) (rt : RayTracer) (scene : Scene) (i j : Int) : Ray :=
  let camPosition := scene.camera.position
  ⟨camPosition, E.Normalise ((pixelCentre rt scene i j).sub camPosition)⟩

/-- The body of the inner pixel loop of `DoRayTrace`: trace the view ray, then write the pixel.
It fails when the trace does not return or when `m_framebuffer` was never assigned. -/
def pixelBody (E : Externals) (stack : Nat) (rt : RayTracer) (scene : Scene) (i j : Int)
    (st : RenderState) : Option RenderState :=
  let viewray := viewRay E rt scene i j
  let scenebg := scene.backgroundColour
  match TraceScene E rt.m_traceflag scene stack viewray scenebg rt.m_traceLevel false with
  | none => none
  | some r =>
    match st.fb with
    | none => none
    | some fb =>
      some { fb := some (fb.WriteRGBToFramebuffer r.colour j i)
             traces := st.traces ++ [⟨viewray, scenebg, rt.m_traceLevel, false, 0⟩] }

/-- `RayTracer::DoRayTrace`, with the rows and columns visited in index order. The result is
the tracer afterwards and the `TraceScene` invocations made; `stack` bounds the call stack of
each of them. -/
def DoRayTrace (E : Externals) (stack : Nat) (rt : RayTracer) (scene : Scene) :
    Option (RayTracer × List Call) :=
  if rt.m_renderCount = 0 then
    match forLoop rt.m_buffHeight
        (fun i => forLoop rt.m_buffWidth (fun j => pixelBody E stack rt scene i j))
        ⟨rt.m_framebuffer, []⟩ with
    | none => none
    | some st =>
      some ({ rt with m_framebuffer := st.fb, m_renderCount := rt.m_renderCount + 1 }, st.traces)
  else
    some (rt, [])

/-! ## Sample data used to evaluate the definitions on concrete inputs -/

/-- A sample choice of the external operations: `Reflect v n = v - 2 (v·n) n`, `Normalise`
leaves its argument as it is, `pow a b = a`, the default light is white at the origin, and
colour components are added exactly. The theorems below hold for every choice. -/
def sampleExternals : Externals :=
  { Normalise := fun v => v
    Reflect := fun v n => v.sub (n.scale (2 * v.DotProduct n))
    pow := fun a _ => a
    defaultLight := ⟨⟨0, 0, 0⟩, ⟨1, 1, 1⟩⟩
    fadd := fun a b => a + b }

/-- A flag mask with ambient, diffuse/specular, shadow and reflection switched on (the field
`m_traceflag` is public). -/
def reflectiveFlags : Nat :=
  TRACE_AMBIENT ||| TRACE_DIFFUSE_AND_SPEC ||| TRACE_SHADOW ||| TRACE_REFLECTION

/-- A sample material: red ambient, white diffuse, grey specular. -/
def sampleMaterial : Material :=
  { ambient := ⟨1, 0, 0⟩, diffuse := ⟨1, 1, 1⟩, specular := ⟨1/2, 1/2, 1/2⟩, specPower := 2 }

/-- A sample sphere primitive. -/
def sampleSphere : Primitive := ⟨PRIMTYPE.PRIMTYPE_Sphere, sampleMaterial⟩

/-- A sample plane primitive. -/
def samplePlane : Primitive := ⟨PRIMTYPE.PRIMTYPE_Plane, sampleMaterial⟩

/-- A sample camera at `(0, 0, -10)` looking along `+z`. -/
def sampleCamera : Camera :=
  { right := ⟨1, 0, 0⟩, up := ⟨0, 1, 0⟩, view := ⟨0, 0, 1⟩
    viewCentre := ⟨0, 0, 0⟩, position := ⟨0, 0, -10⟩ }

/-- A scene whose intersection provider reports a hit on a sphere for every ray: the ray's
origin pushed along its direction, with normal `(0, 0, -1)`. -/
def mirrorScene : Scene :=
  { IntersectByRay := fun ray _ => ⟨ray.start.add ray.direction, ⟨0, 0, -1⟩, some sampleSphere⟩
    lightList := [⟨⟨0, 10, 0⟩, ⟨1, 1, 1⟩⟩]
    camera := sampleCamera
    backgroundColour := ⟨0, 0, 1⟩
    sceneWidth := 4
    sceneHeight := 4 }

/-- A scene in which nothing is ever hit. -/
def emptyScene : Scene :=
  { mirrorScene with IntersectByRay := fun _ _ => ⟨⟨0, 0, 0⟩, ⟨0, 0, 0⟩, none⟩ }

/-- A scene with one sphere and two lights: rays that start at the camera hit the sphere at
the origin, every other ray misses. -/
def oneHitScene : Scene :=
  { mirrorScene with
    IntersectByRay := fun ray _ =>
      if ray.start = sampleCamera.position then ⟨⟨0, 0, 0⟩, ⟨0, 0, -1⟩, some sampleSphere⟩
      else ⟨⟨0, 0, 0⟩, ⟨0, 0, 0⟩, none⟩
    lightList := [⟨⟨0, 10, 0⟩, ⟨1, 1, 1⟩⟩, ⟨⟨5, 5, 0⟩, ⟨1, 1, 1⟩⟩] }

/-- A scene with a floor plane only: every ray hits the plane at `(3, 0, 1)`. -/
def floorScene : Scene :=
  { mirrorScene with
    IntersectByRay := fun _ _ => ⟨⟨3, 0, 1⟩, ⟨0, 1, 0⟩, some samplePlane⟩ }

/-- A sample primary ray from the sample camera. -/
def sampleRay : Ray := ⟨⟨0, 0, -10⟩, ⟨0, 0, 1⟩⟩

/-- The tracer `RayTracer(1, 1)` after one `DoRayTrace` of the empty scene: its single pixel
holds the background colour and the render count is `1`. -/
def renderedOnce : RayTracer :=
  { m_framebuffer := some ⟨1, 1, [⟨⟨0, 0, 1⟩, 0, 0⟩]⟩
    m_buffWidth := 1
    m_buffHeight := 1
    m_renderCount := 1
    m_traceLevel := 5
    m_traceflag := TRACE_AMBIENT }

/-- Whether the shadow ray built for light `lit` at the point `point` hits a primitive: the
answer of the intersection provider to that ray, asked as a shadow ray. -/
def occluded (E : Externals) (scene : Scene) (point : Vector3) (lit : Light) : Bool :=
  (scene.IntersectByRay (shadowRayFor E point lit) true).data.isSome

/-- The one-sphere scene with an occluder: rays that start at the camera hit the sphere at the
origin, every other ray whose direction has a positive `x` component hits the sphere too, and
the remaining rays miss. Its first light, at `(5, 5, 0)`, is therefore occluded at the origin
and its second light, at `(0, 10, 0)`, is not. -/
def occluderScene : Scene :=
  { mirrorScene with
    IntersectByRay := fun ray _ =>
      if ray.start = sampleCamera.position then ⟨⟨0, 0, 0⟩, ⟨0, 0, -1⟩, some sampleSphere⟩
      else if 0 < ray.direction.x then ⟨ray.start, ⟨0, 0, -1⟩, some sampleSphere⟩
      else ⟨⟨0, 0, 0⟩, ⟨0, 0, 0⟩, none⟩
    lightList := [⟨⟨5, 5, 0⟩, ⟨1, 1, 1⟩⟩, ⟨⟨0, 10, 0⟩, ⟨1, 1, 1⟩⟩] }

/-- A recorded call without the depth budget it was handed: its ray, fallback colour, shadow
flag and nesting depth. Every call queries the intersection provider once, on entry, with its
ray and its shadow flag. -/
def Call.withoutLevel (c : Call) : Ray × Colour × Bool × Nat :=
  (c.ray, c.incolour, c.shadowray, c.depth)

/-- What a frame of `TraceScene` holds apart from depth budgets. -/
def Frame.withoutLevels (fr : Frame) : Ray × Colour × List (Ray × Colour × Bool × Nat) :=
  (fr.ray, fr.outcolour, fr.calls.map Call.withoutLevel)

/-- What a returned `TraceScene` invocation shows apart from depth budgets: its colour, the
final ray, and its calls without their budgets. -/
def TraceOut.withoutLevels (r : TraceOut) : Colour × Ray × List (Ray × Colour × Bool × Nat) :=
  (r.colour, r.ray, r.calls.map Call.withoutLevel)

/-- Truncation is the floor on non-negative values. -/
theorem truncate_of_nonneg (d : ℚ) (h : 0 ≤ d) : truncate d = ⌊d⌋ := by
  have hn : 0 ≤ d.num := Rat.num_nonneg.mpr h
  unfold truncate
  rw [Rat.floor_def, Int.tdiv_eq_ediv hn (Int.ofNat_nonneg _)]

/-- Truncation is the ceiling on non-positive values. -/
theorem truncate_of_nonpos (d : ℚ) (h : d ≤ 0) : truncate d = ⌈d⌉ := by
  have hn : 0 ≤ (-d).num := Rat.num_nonneg.mpr (neg_nonneg.mpr h)
  have h1 : truncate (-d) = ⌊-d⌋ := truncate_of_nonneg (-d) (neg_nonneg.mpr h)
  have h2 : truncate (-d) = -truncate d := by
    unfold truncate
    rw [Rat.neg_num, Rat.neg_den, Int.neg_tdiv]
  rw [Int.floor_neg] at h1
  omega

/-- The conversion to `int` is the floor on non-negative values below `2^31`. -/
theorem toInt_of_nonneg (d : ℚ) (h : 0 ≤ d) (hr : d < 2147483648) : toInt d = ⌊d⌋ := by
  have h0 : 0 ≤ ⌊d⌋ := Int.floor_nonneg.mpr h
  have h1 : ⌊d⌋ < 2147483648 := Int.floor_lt.mpr (by exact_mod_cast hr)
  simp only [toInt, truncate_of_nonneg d h, INT_MIN, INT_MAX]
  rw [if_pos ⟨by omega, by omega⟩]

/-- The conversion to `int` is the ceiling on non-positive values above `-2^31`. -/
theorem toInt_of_nonpos (d : ℚ) (h : d ≤ 0) (hr : -2147483648 < d) : toInt d = ⌈d⌉ := by
  have h0 : ⌈d⌉ ≤ 0 := Int.ceil_le.mpr (by exact_mod_cast h)
  have h1 : -2147483648 < ⌈d⌉ := Int.lt_ceil.mpr (by exact_mod_cast hr)
  simp only [toInt, truncate_of_nonpos d h, INT_MIN, INT_MAX]
  rw [if_pos ⟨by omega, by omega⟩]

/-- Within the `int` range the conversion rounds toward zero: down when the value is not
negative, up when it is. -/
theorem toInt_toward_zero (d : ℚ) (hr : |d| < 2147483648) :
    toInt d = if 0 ≤ d then ⌊d⌋ else ⌈d⌉ := by
  obtain ⟨hlo, hhi⟩ := abs_lt.mp hr
  split
  · next h => exact toInt_of_nonneg d h hhi
  · next h => exact toInt_of_nonpos d (le_of_lt (not_le.mp h)) hlo

/-- The C++ test `dx % 2` is true exactly on the odd integers, negative ones included. -/
theorem oddInt_iff (dx : Int) : oddInt dx = true ↔ Odd dx := by
  unfold oddInt
  rw [Int.odd_iff]
  simp only [bne_iff_ne, ne_eq]
  rcases le_total 0 dx with h | h
  · rw [Int.tmod_eq_emod h (by decide)]
    omega
  · have e : dx.tdiv 2 = -((-dx) / 2) := by
      have h1 := Int.neg_tdiv (-dx) 2
      rw [neg_neg] at h1
      rw [h1, Int.tdiv_eq_ediv (by omega) (by decide)]
    rw [Int.tmod_def, e]
    omega

/-- The flag tests of a tracer whose mask is exactly `TRACE_AMBIENT`. -/
theorem flagSet_ambient_only :
    flagSet TRACE_AMBIENT TRACE_DIFFUSE_AND_SPEC = false ∧
    flagSet TRACE_AMBIENT TRACE_SHADOW = false ∧
    flagSet TRACE_AMBIENT TRACE_REFLECTION = false := by
  decide

/-! ## The recursive tracer: terminal cases -/

/-- C1: when the intersection provider reports no hit for the ray, `TraceScene` returns (for
every stack bound of at least one frame) exactly the fallback colour `incolour`, with the ray
unchanged and no recursive call recorded; this holds for every scene, ray, fallback colour,
depth budget and shadow-ray flag. -/
theorem TraceScene_no_hit (E : Externals) (m_traceflag : Nat) (scene : Scene) (stack : Nat)
    (ray : Ray) (incolour : Colour) (tracelevel : Int) (shadowray : Bool)
    (hmiss : (scene.IntersectByRay ray shadowray).data = none) :
    TraceScene E m_traceflag scene (stack + 1) ray incolour tracelevel shadowray
      = some ⟨incolour, ray, []⟩ := by
  simp only [TraceScene, hmiss]

/-- Witness for C1: a primary ray in the scene where nothing is hit. -/
theorem TraceScene_no_hit_witness :
    (emptyScene.IntersectByRay sampleRay false).data = none ∧
    TraceScene sampleExternals 31 emptyScene 1 sampleRay ⟨0, 0, 1⟩ 5 false
      = some ⟨⟨0, 0, 1⟩, sampleRay, []⟩ :=
  ⟨rfl, TraceScene_no_hit sampleExternals 31 emptyScene 0 sampleRay ⟨0, 0, 1⟩ 5 false rfl⟩

/-- C2: when `TraceScene` is called with `shadowray = true` and the intersection provider
reports a hit, it returns the fallback colour with every component multiplied by 0.3, whatever
the primitive hit (its type and material), the flags and the depth budget; the ray is unchanged
and no recursive call is recorded. -/
theorem TraceScene_shadow_hit (E : Externals) (m_traceflag : Nat) (scene : Scene) (stack : Nat)
    (ray : Ray) (incolour : Colour) (tracelevel : Int) (prim : Primitive)
    (hhit : (scene.IntersectByRay ray true).data = some prim) :
    TraceScene E m_traceflag scene (stack + 1) ray incolour tracelevel true
      = some ⟨⟨incolour.x * (3/10), incolour.y * (3/10), incolour.z * (3/10)⟩, ray, []⟩ := by
  simp [TraceScene, hhit, Vector3.scale]

/-- Witness for C2: a shadow ray in the floor scene, fallback colour `(1, 1/2, 0)`. -/
theorem TraceScene_shadow_hit_witness :
    (floorScene.IntersectByRay sampleRay true).data = some samplePlane ∧
    TraceScene sampleExternals 31 floorScene 1 sampleRay ⟨1, 1/2, 0⟩ 5 true
      = some ⟨⟨1 * (3/10), 1/2 * (3/10), 0 * (3/10)⟩, sampleRay, []⟩ :=
  ⟨rfl, TraceScene_shadow_hit sampleExternals 31 floorScene 0 sampleRay ⟨1, 1/2, 0⟩ 5
    samplePlane rfl⟩

/-- In a scene where every non-shadow ray hits a primitive that is not a plane, a non-shadow
`TraceScene` with the reflection flag set exceeds every bound on the call stack. -/
theorem TraceScene_none_of_always_reflecting (E : Externals) (m_traceflag : Nat) (scene : Scene)
    (hrefl : flagSet m_traceflag TRACE_REFLECTION = true)
    (hall : ∀ ray, ∃ prim, (scene.IntersectByRay ray false).data = some prim ∧
      prim.m_primtype ≠ PRIMTYPE.PRIMTYPE_Plane) :
    ∀ (stack : Nat) (ray : Ray) (incolour : Colour) (tracelevel : Int),
      TraceScene E m_traceflag scene stack ray incolour tracelevel false = none := by
  intro stack
  induction stack with
  | zero => intro ray incolour tracelevel; rfl
  | succ n ih =>
    intro ray incolour tracelevel
    obtain ⟨prim, hdata, hnp⟩ := hall ray
    simp only [TraceScene, hdata]
    cases hl : CalculateLighting E m_traceflag scene.lightList ray.start
        (scene.IntersectByRay ray false) with
    | none => simp
    | some lit => simp [reflectionStep, hrefl, hnp, ih]

/-- C3 (the code at a failing input): with reflection switched on, in a scene where every ray
hits a sphere, a non-shadow `TraceScene` does not return within any bound on the call stack,
whatever the depth budget, and neither does `DoRayTrace` of a 1 × 1 tracer (depth `5`); and in
the one-sphere scene a call with depth budget `0` still makes three recursive calls (one
reflection call, two shadow calls), which receive the budgets `0`, `-1` and `-2`. -/
theorem TraceScene_budget_not_enforced :
    (∀ (stack : Nat) (ray : Ray) (incolour : Colour) (tracelevel : Int),
      TraceScene sampleExternals reflectiveFlags mirrorScene stack ray incolour
        tracelevel false = none) ∧
    (∀ stack : Nat,
      DoRayTrace sampleExternals stack
        { RayTracer.ctorWH 1 1 with m_traceflag := reflectiveFlags } mirrorScene = none) ∧
    (TraceScene sampleExternals reflectiveFlags oneHitScene 2 sampleRay
        ⟨0, 0, 1⟩ 0 false).map (fun r => r.calls.map (fun c => (c.tracelevel, c.shadowray)))
      = some [(0, false), (-1, true), (-2, true)] := by
  have hnone := TraceScene_none_of_always_reflecting sampleExternals reflectiveFlags mirrorScene
    (by decide) (fun r => ⟨sampleSphere, rfl, by decide⟩)
  refine ⟨hnone, ?_, ?_⟩
  · intro stack
    simp [DoRayTrace, forLoop, RayTracer.ctorWH, pixelBody, hnone, List.range_succ]
  · have hf : flagSet reflectiveFlags TRACE_REFLECTION = true := by decide
    have hs : flagSet reflectiveFlags TRACE_SHADOW = true := by decide
    have hd : flagSet reflectiveFlags TRACE_DIFFUSE_AND_SPEC = true := by decide
    simp [TraceScene, oneHitScene, mirrorScene, sampleRay, sampleCamera, CalculateLighting,
      reflectionStep, shadowStep, shadowLoop, hf, hs, hd, sampleSphere, Ray.SetRay, Vector3.add,
      Vector3.scale, Vector3.sub, sampleExternals, nested]

/-! ## The recursive tracer: shadow calls -/

/-- A `TraceScene` call with `shadowray = true` returns at once: the fallback colour, scaled
by 0.3 if something was hit; the ray is unchanged and no call is made. -/
theorem TraceScene_shadowray (E : Externals) (m_traceflag : Nat) (scene : Scene) (stack : Nat)
    (ray : Ray) (incolour : Colour) (tracelevel : Int) :
    TraceScene E m_traceflag scene (stack + 1) ray incolour tracelevel true
      = some ⟨if (scene.IntersectByRay ray true).data.isSome then incolour.scale (3/10)
              else incolour, ray, []⟩ := by
  cases h : (scene.IntersectByRay ray true).data <;> simp [TraceScene, h]

/-- Folding "take the latest" over a list yields the image of its last element. -/
theorem foldl_latest {α β : Type} (f : α → β) (l : List α) (b : β) :
    l.foldl (fun _ a => f a) b = (l.getLast?.map f).getD b := by
  induction l generalizing b with
  | nil => rfl
  | cons a rest ih =>
    rw [List.foldl_cons, ih, List.getLast?_cons]
    cases rest.getLast? <;> rfl

/-- The shadow loop, run with at least one stack frame left for its calls, returns; it makes
one call per light, each with `shadowray = true` and with the shadow ray of that light, and
leaves the ray at the shadow ray of the last light. -/
theorem shadowLoop_returns (E : Externals) (m_traceflag : Nat) (scene : Scene) (stack : Nat)
    (result : RayHitResult) :
    ∀ (lights : List Light) (fr : Frame), ∃ fr1 cs,
      shadowLoop E (TraceScene E m_traceflag scene (stack + 1)) result lights fr = some fr1 ∧
      fr1.calls = fr.calls ++ cs ∧
      cs.map Call.ray = lights.map (shadowRayFor E result.point) ∧
      (∀ c ∈ cs, c.shadowray = true ∧ c.depth = 0) ∧
      fr1.ray = lights.foldl (fun _ lit => shadowRayFor E result.point lit) fr.ray ∧
      fr1.tracelevel = fr.tracelevel - lights.length := by
  intro lights
  induction lights with
  | nil =>
    intro fr
    exact ⟨fr, [], rfl, by simp, rfl, by simp, rfl, by simp⟩
  | cons lit rest ih =>
    intro fr
    have hstep : shadowLoop E (TraceScene E m_traceflag scene (stack + 1)) result (lit :: rest) fr
        = shadowLoop E (TraceScene E m_traceflag scene (stack + 1)) result rest
          { ray := shadowRayFor E result.point lit
            outcolour :=
              if (scene.IntersectByRay (shadowRayFor E result.point lit) true).data.isSome
              then fr.outcolour.scale (3/10) else fr.outcolour
            tracelevel := fr.tracelevel - 1
            calls := fr.calls ++
              [⟨shadowRayFor E result.point lit, fr.outcolour, fr.tracelevel, true, 0⟩] } := by
      simp [shadowLoop, TraceScene_shadowray, nested, shadowRayFor, Ray.SetRay]
    rw [hstep]
    obtain ⟨fr1, cs, h1, h2, h3, h4, h5, h6⟩ := ih
      { ray := shadowRayFor E result.point lit
        outcolour :=
          if (scene.IntersectByRay (shadowRayFor E result.point lit) true).data.isSome
          then fr.outcolour.scale (3/10) else fr.outcolour
        tracelevel := fr.tracelevel - 1
        calls := fr.calls ++
          [⟨shadowRayFor E result.point lit, fr.outcolour, fr.tracelevel, true, 0⟩] }
    refine ⟨fr1, ⟨shadowRayFor E result.point lit, fr.outcolour, fr.tracelevel, true, 0⟩ :: cs,
      h1, ?_, ?_, ?_, ?_, ?_⟩
    · rw [h2]
      simp
    · simp only [List.map_cons, h3]
    · intro c hc
      rcases List.mem_cons.mp hc with rfl | hc
      · exact ⟨rfl, rfl⟩
      · exact h4 c hc
    · rw [h5]
      rfl
    · rw [h6]
      simp only [List.length_cons]
      push_cast
      ring

/-- One unfolding of `TraceScene` for a non-shadow ray that hits `prim`: local shading, then
the reflection block, then the shadow block, the recursive calls having one stack frame
less. -/
theorem TraceScene_hit (E : Externals) (m_traceflag : Nat) (scene : Scene) (stack : Nat)
    (ray : Ray) (incolour : Colour) (tracelevel : Int) (prim : Primitive)
    (hhit : (scene.IntersectByRay ray false).data = some prim) :
    TraceScene E m_traceflag scene (stack + 1) ray incolour tracelevel false =
      (CalculateLighting E m_traceflag scene.lightList ray.start
          (scene.IntersectByRay ray false)).bind (fun lit =>
        (reflectionStep E m_traceflag scene (TraceScene E m_traceflag scene stack)
            (scene.IntersectByRay ray false) prim false ⟨ray, lit, tracelevel, []⟩).bind
          (fun fr1 =>
            (shadowStep E m_traceflag scene (TraceScene E m_traceflag scene stack)
                (scene.IntersectByRay ray false) fr1).map
              (fun fr2 => ⟨fr2.outcolour, fr2.ray, fr2.calls⟩))) := by
  simp only [TraceScene, hhit, Bool.not_false, if_true]
  cases CalculateLighting E m_traceflag scene.lightList ray.start
      (scene.IntersectByRay ray false) with
  | none => rfl
  | some lit =>
    simp only [Option.bind]
    cases reflectionStep E m_traceflag scene (TraceScene E m_traceflag scene stack)
        (scene.IntersectByRay ray false) prim false ⟨ray, lit, tracelevel, []⟩ with
    | none => rfl
    | some fr1 =>
      simp only []
      cases shadowStep E m_traceflag scene (TraceScene E m_traceflag scene stack)
          (scene.IntersectByRay ray false) fr1 <;> rfl

/-! ## The recursive tracer: planes -/

/-- C6: when the primitive hit by a non-shadow ray is a plane, the reflection block of
`TraceScene` does nothing, whatever the flags (REFLECTION included), the scene, the camera and
the depth budget: it returns the frame it was given (same ray, no call). `TraceScene` then
returns (given two stack frames), every call it made is a shadow call, the rays of its calls
are the shadow rays of the lights (when SHADOW is set; none otherwise), and its ray ends as the
shadow ray of the last light, or as the ray passed in when no call was made. -/
theorem TraceScene_plane_no_reflection (E : Externals) (m_traceflag : Nat) (scene : Scene)
    (stack : Nat) (ray : Ray) (incolour : Colour) (tracelevel : Int) (prim : Primitive)
    (hhit : (scene.IntersectByRay ray false).data = some prim)
    (hplane : prim.m_primtype = PRIMTYPE.PRIMTYPE_Plane) :
    (∀ (trace : Ray → Colour → Int → Bool → Option TraceOut) (shadowray : Bool) (fr : Frame),
      reflectionStep E m_traceflag scene trace (scene.IntersectByRay ray false) prim shadowray fr
        = some fr) ∧
    ∃ r, TraceScene E m_traceflag scene (stack + 2) ray incolour tracelevel false = some r ∧
      (∀ c ∈ r.calls, c.shadowray = true) ∧
      r.calls.map Call.ray =
        (if flagSet m_traceflag TRACE_SHADOW then
          scene.lightList.map (shadowRayFor E (scene.IntersectByRay ray false).point)
         else []) ∧
      r.ray = ((r.calls.getLast?).map Call.ray).getD ray := by
  have hrefl : ∀ (trace : Ray → Colour → Int → Bool → Option TraceOut) (shadowray : Bool)
      (fr : Frame), reflectionStep E m_traceflag scene trace (scene.IntersectByRay ray false)
        prim shadowray fr = some fr := by
    intro trace shadowray fr
    simp [reflectionStep, hplane]
  refine ⟨hrefl, ?_⟩
  rw [TraceScene_hit E m_traceflag scene (stack + 1) ray incolour tracelevel prim hhit]
  simp only [hhit, CalculateLighting, hplane, if_true, hrefl, shadowStep, Option.bind]
  by_cases hs : flagSet m_traceflag TRACE_SHADOW = true
  · obtain ⟨fr1, cs, h1, h2, h3, h4, h5, _⟩ := shadowLoop_returns E m_traceflag scene stack
      (scene.IntersectByRay ray false) scene.lightList
      ⟨ray, gridPattern prim.material (scene.IntersectByRay ray false).point, tracelevel, []⟩
    simp only [hs, if_true, h1, Option.map_some']
    simp only [List.nil_append] at h2
    refine ⟨_, rfl, ?_, ?_, ?_⟩
    · intro c hc
      rw [h2] at hc
      exact (h4 c hc).1
    · rw [h2, h3]
    · show fr1.ray = ((fr1.calls.getLast?).map Call.ray).getD ray
      rw [h2, ← List.getLast?_map, h3, h5, foldl_latest, List.getLast?_map]
  · simp [hs]

/-- Witness for C6: the floor scene (one light), all flags set, depth budget `5`: one shadow
call, towards the light, and no other call. -/
theorem TraceScene_plane_no_reflection_witness :
    ∃ r, TraceScene sampleExternals 31 floorScene 2 sampleRay ⟨0, 0, 1⟩ 5 false = some r ∧
      (∀ c ∈ r.calls, c.shadowray = true) ∧
      r.calls.map Call.ray =
        (if flagSet 31 TRACE_SHADOW then
          floorScene.lightList.map
            (shadowRayFor sampleExternals (floorScene.IntersectByRay sampleRay false).point)
         else []) ∧
      r.ray = ((r.calls.getLast?).map Call.ray).getD sampleRay :=
  (TraceScene_plane_no_reflection sampleExternals 31 floorScene 0 sampleRay ⟨0, 0, 1⟩ 5
    samplePlane rfl rfl).2

/-! ## Shading -/

/-- The parity test of the grid pattern, for a point whose halved coordinates lie within the
`int` range: it succeeds exactly when one of the halved coordinates, rounded toward zero, is
odd. -/
theorem gridPattern_test (point : Vector3)
    (hx : |point.x / 2| < 2147483648) (hy : |point.y / 2| < 2147483648)
    (hz : |point.z / 2| < 2147483648) :
    (oddInt (toInt (point.x / 2)) || oddInt (toInt (point.y / 2))
        || oddInt (toInt (point.z / 2))) = true ↔
      (Odd (if 0 ≤ point.x / 2 then ⌊point.x / 2⌋ else ⌈point.x / 2⌉) ∨
       Odd (if 0 ≤ point.y / 2 then ⌊point.y / 2⌋ else ⌈point.y / 2⌉) ∨
       Odd (if 0 ≤ point.z / 2 then ⌊point.z / 2⌋ else ⌈point.z / 2⌉)) := by
  simp only [Bool.or_eq_true, oddInt_iff, toInt_toward_zero _ hx, toInt_toward_zero _ hy,
    toInt_toward_zero _ hz, or_assoc]

/-- C4 (as stated, refuted): the plane hit at `(-1, 0, 0)` has `floor(x/2) = -1`, which is
odd, yet `CalculateLighting` returns the material's diffuse colour `(1, 1, 1)` and not the dark
grey; and at `(10000000002, 0, 0)`, where `x/2 = 5000000001` is odd but does not fit an `int`,
the converted value is `INT_MIN` and the diffuse colour is returned as well. -/
theorem CalculateLighting_floor_rule_fails :
    Odd ⌊(-1 : ℚ) / 2⌋ ∧
    CalculateLighting sampleExternals TRACE_AMBIENT [] ⟨0, 0, -10⟩
      ⟨⟨-1, 0, 0⟩, ⟨0, 1, 0⟩, some samplePlane⟩ = some samplePlane.material.diffuse ∧
    samplePlane.material.diffuse ≠ darkGrey ∧
    Odd ⌊(10000000002 : ℚ) / 2⌋ ∧
    CalculateLighting sampleExternals TRACE_AMBIENT [] ⟨0, 0, -10⟩
      ⟨⟨10000000002, 0, 0⟩, ⟨0, 1, 0⟩, some samplePlane⟩ = some samplePlane.material.diffuse := by
  refine ⟨?_, by decide!, by decide!, ?_, by decide!⟩
  · have h : ⌊(-1 : ℚ) / 2⌋ = -1 := by
      rw [Int.floor_eq_iff]
      norm_num
    rw [h]
    decide
  · have h : ⌊(10000000002 : ℚ) / 2⌋ = 5000000001 := by
      rw [Int.floor_eq_iff]
      norm_num
    rw [h]
    decide

/-- C4 (amended): for every plane hit at `(x, y, z)` whose halved coordinates lie within the
range of a 32-bit `int` (`|x/2|, |y/2|, |z/2| < 2^31`; outside it the conversion to `int` is
undefined), `CalculateLighting` returns the dark grey `(0.1, 0.1, 0.1)` when one of the halved
coordinates, rounded toward zero (down when it is non-negative, up when it is negative), is
odd, and the material's diffuse colour otherwise; negative coordinates are included, and the
flags and the light list play no part. -/
theorem CalculateLighting_plane_truncation_rule (E : Externals) (m_traceflag : Nat)
    (lights : List Light) (campos : Vector3) (hitresult : RayHitResult) (prim : Primitive)
    (hdata : hitresult.data = some prim)
    (hplane : prim.m_primtype = PRIMTYPE.PRIMTYPE_Plane)
    (hx : |hitresult.point.x / 2| < 2147483648)
    (hy : |hitresult.point.y / 2| < 2147483648)
    (hz : |hitresult.point.z / 2| < 2147483648) :
    let towardZero : ℚ → Int := fun c => if 0 ≤ c / 2 then ⌊c / 2⌋ else ⌈c / 2⌉
    let anyOdd : Prop := Odd (towardZero hitresult.point.x) ∨ Odd (towardZero hitresult.point.y)
      ∨ Odd (towardZero hitresult.point.z)
    (anyOdd → CalculateLighting E m_traceflag lights campos hitresult = some darkGrey) ∧
    (¬ anyOdd →
      CalculateLighting E m_traceflag lights campos hitresult = some prim.material.diffuse) := by
  intro towardZero anyOdd
  have hodd := gridPattern_test hitresult.point hx hy hz
  constructor
  · intro h
    simp only [CalculateLighting, hdata, hplane, gridPattern, if_true, hodd.mpr h]
  · intro h
    have h2 : ¬ ((oddInt (toInt (hitresult.point.x / 2)) || oddInt (toInt (hitresult.point.y / 2))
      || oddInt (toInt (hitresult.point.z / 2))) = true) := fun hh => h (hodd.mp hh)
    simp only [CalculateLighting, hdata, hplane, gridPattern, if_true, h2, if_false]
    rfl

/-- Witness for C4 (amended): the literal points of the specification, `(3, 0, 0)` giving the
dark grey and `(1, 0, 0)` giving the diffuse colour, on the sample plane. -/
theorem CalculateLighting_plane_truncation_rule_witness :
    CalculateLighting sampleExternals 31 [] ⟨0, 0, -10⟩ ⟨⟨3, 0, 0⟩, ⟨0, 1, 0⟩, some samplePlane⟩
      = some darkGrey ∧
    CalculateLighting sampleExternals 31 [] ⟨0, 0, -10⟩ ⟨⟨1, 0, 0⟩, ⟨0, 1, 0⟩, some samplePlane⟩
      = some samplePlane.material.diffuse := by
  constructor
  · refine (CalculateLighting_plane_truncation_rule sampleExternals 31 [] ⟨0, 0, -10⟩
      ⟨⟨3, 0, 0⟩, ⟨0, 1, 0⟩, some samplePlane⟩ samplePlane rfl rfl
      (by norm_num [abs_lt]) (by norm_num [abs_lt]) (by norm_num [abs_lt])).1 ?_
    left
    have h : ⌊(3 : ℚ) / 2⌋ = 1 := by
      rw [Int.floor_eq_iff]
      norm_num
    have h3 : (0 : ℚ) ≤ 3 / 2 := by norm_num
    simp only [h3, if_true, h]
    decide
  · refine (CalculateLighting_plane_truncation_rule sampleExternals 31 [] ⟨0, 0, -10⟩
      ⟨⟨1, 0, 0⟩, ⟨0, 1, 0⟩, some samplePlane⟩ samplePlane rfl rfl
      (by norm_num [abs_lt]) (by norm_num [abs_lt]) (by norm_num [abs_lt])).2 ?_
    have h : ⌊(1 : ℚ) / 2⌋ = 0 := by
      rw [Int.floor_eq_iff]
      norm_num
    have h1 : (0 : ℚ) ≤ 1 / 2 := by norm_num
    have h0 : ⌊(0 : ℚ) / 2⌋ = 0 := by norm_num
    simp only [h1, if_true, h, h0, le_refl, zero_div]
    decide

/-- C9: with an empty light list, for every flag setting and every hit on a primitive that is
not a plane, `CalculateLighting` returns exactly the material's ambient colour. -/
theorem CalculateLighting_no_lights (E : Externals) (m_traceflag : Nat) (campos : Vector3)
    (hitresult : RayHitResult) (prim : Primitive)
    (hdata : hitresult.data = some prim)
    (hnotplane : prim.m_primtype ≠ PRIMTYPE.PRIMTYPE_Plane) :
    CalculateLighting E m_traceflag [] campos hitresult = some prim.material.ambient := by
  simp only [CalculateLighting, hdata, hnotplane, if_false, lightingLoop]
  split <;> rfl

/-- Witness for C9: the sample sphere, all flags set, no light. -/
theorem CalculateLighting_no_lights_witness :
    CalculateLighting sampleExternals 31 [] ⟨0, 0, -10⟩ ⟨⟨0, 0, 0⟩, ⟨0, 0, -1⟩, some sampleSphere⟩
      = some ⟨1, 0, 0⟩ :=
  CalculateLighting_no_lights sampleExternals 31 ⟨0, 0, -10⟩
    ⟨⟨0, 0, 0⟩, ⟨0, 0, -1⟩, some sampleSphere⟩ sampleSphere rfl (by decide)

/-- With the flag mask `TRACE_AMBIENT` a non-shadow hit returns what the local shading gives:
the ambient colour, or for a plane the colour of the grid-pattern block; the ray is unchanged
and no call is made. -/
theorem TraceScene_ambient_local (E : Externals) (scene : Scene) (stack : Nat) (ray : Ray)
    (incolour : Colour) (tracelevel : Int) (prim : Primitive)
    (hhit : (scene.IntersectByRay ray false).data = some prim) :
    TraceScene E TRACE_AMBIENT scene (stack + 1) ray incolour tracelevel false
      = some ⟨if prim.m_primtype = PRIMTYPE.PRIMTYPE_Plane
                then gridPattern prim.material (scene.IntersectByRay ray false).point
                else prim.material.ambient,
              ray, []⟩ := by
  obtain ⟨hd, hs, hr⟩ := flagSet_ambient_only
  simp only [TraceScene, hhit, CalculateLighting, reflectionStep, shadowStep, hd, hs, hr]
  by_cases hp : prim.m_primtype = PRIMTYPE.PRIMTYPE_Plane <;> simp [hp]

/-- C5: when the flag mask is exactly `TRACE_AMBIENT`, a non-shadow `TraceScene` whose ray hits
a primitive returns (for every stack bound of at least one frame, every light list and every
depth budget) with the ray unchanged and no recursive call made. The colour is the
material's ambient colour if the primitive is not a plane. If it is a plane hit at `(x, y, z)`
with `|x/2|, |y/2|, |z/2| < 2^31` (the range in which the conversion to `int` is defined), the
colour is the checkerboard colour: the dark grey `(0.1, 0.1, 0.1)` when one of `x/2`, `y/2`,
`z/2`, rounded toward zero, is odd, and the material's diffuse colour otherwise. -/
theorem TraceScene_ambient_only (E : Externals) (scene : Scene) (stack : Nat) (ray : Ray)
    (incolour : Colour) (tracelevel : Int) (prim : Primitive)
    (hhit : (scene.IntersectByRay ray false).data = some prim) :
    let p := (scene.IntersectByRay ray false).point
    let towardZero : ℚ → Int := fun c => if 0 ≤ c / 2 then ⌊c / 2⌋ else ⌈c / 2⌉
    let anyOdd : Prop := Odd (towardZero p.x) ∨ Odd (towardZero p.y) ∨ Odd (towardZero p.z)
    (∃ c, TraceScene E TRACE_AMBIENT scene (stack + 1) ray incolour tracelevel false
      = some ⟨c, ray, []⟩) ∧
    (prim.m_primtype ≠ PRIMTYPE.PRIMTYPE_Plane →
      TraceScene E TRACE_AMBIENT scene (stack + 1) ray incolour tracelevel false
        = some ⟨prim.material.ambient, ray, []⟩) ∧
    (prim.m_primtype = PRIMTYPE.PRIMTYPE_Plane →
      |p.x / 2| < 2147483648 → |p.y / 2| < 2147483648 → |p.z / 2| < 2147483648 →
      (anyOdd → TraceScene E TRACE_AMBIENT scene (stack + 1) ray incolour tracelevel false
        = some ⟨darkGrey, ray, []⟩) ∧
      (¬ anyOdd → TraceScene E TRACE_AMBIENT scene (stack + 1) ray incolour tracelevel false
        = some ⟨prim.material.diffuse, ray, []⟩)) := by
  intro p towardZero anyOdd
  have hlocal := TraceScene_ambient_local E scene stack ray incolour tracelevel prim hhit
  refine ⟨⟨_, hlocal⟩, ?_, ?_⟩
  · intro hnp
    rw [hlocal, if_neg hnp]
  · intro hp hx hy hz
    have hodd := gridPattern_test (scene.IntersectByRay ray false).point hx hy hz
    rw [hlocal, if_pos hp]
    constructor
    · intro h
      simp only [gridPattern, hodd.mpr h, if_true]
    · intro h
      have h2 : ¬ ((oddInt (toInt ((scene.IntersectByRay ray false).point.x / 2))
          || oddInt (toInt ((scene.IntersectByRay ray false).point.y / 2))
          || oddInt (toInt ((scene.IntersectByRay ray false).point.z / 2))) = true) :=
        fun hh => h (hodd.mp hh)
      simp only [gridPattern, h2, if_false]
      rfl

/-- Witness for C5: the one-sphere scene (two lights, depth budget `5`) returns the sphere's
ambient colour `(1, 0, 0)`; the floor scene, whose plane is hit at `(3, 0, 1)` with
`3/2` rounded to the odd `1`, returns the dark grey. -/
theorem TraceScene_ambient_only_witness :
    TraceScene sampleExternals TRACE_AMBIENT oneHitScene 1 sampleRay ⟨0, 0, 1⟩ 5 false
      = some ⟨⟨1, 0, 0⟩, sampleRay, []⟩ ∧
    TraceScene sampleExternals TRACE_AMBIENT floorScene 1 sampleRay ⟨0, 0, 1⟩ 5 false
      = some ⟨⟨1/10, 1/10, 1/10⟩, sampleRay, []⟩ := by
  constructor
  · exact (TraceScene_ambient_only sampleExternals oneHitScene 0 sampleRay ⟨0, 0, 1⟩ 5
      sampleSphere rfl).2.1 (by decide)
  · refine ((TraceScene_ambient_only sampleExternals floorScene 0 sampleRay ⟨0, 0, 1⟩ 5
      samplePlane rfl).2.2 rfl ?_ ?_ ?_).1 ?_
    · norm_num [floorScene, abs_lt]
    · norm_num [floorScene, abs_lt]
    · norm_num [floorScene, abs_lt]
    · left
      have h : ⌊(3 : ℚ) / 2⌋ = 1 := by
        rw [Int.floor_eq_iff]
        norm_num
      have h3 : (0 : ℚ) ≤ 3 / 2 := by norm_num
      show Odd (if 0 ≤ (3 : ℚ) / 2 then ⌊(3 : ℚ) / 2⌋ else ⌈(3 : ℚ) / 2⌉)
      simp only [h3, if_true, h]
      decide

/-! ## The frame driver -/

/-- The inner pixel loop over any list of column indices `ks`, in row `i`: if the trace of
every pixel of the row returns, the loop returns, having appended one write per column, in
order, each carrying the colour returned by the trace of its pixel. -/
theorem columnLoop_returns (E : Externals) (stack : Nat) (rt : RayTracer) (scene : Scene)
    (i : Int) :
    ∀ (ks : List Nat) (fb : Framebuffer) (traces : List Call),
      (∀ k ∈ ks, (TraceScene E rt.m_traceflag scene stack (viewRay E rt scene i (k : Int))
          scene.backgroundColour rt.m_traceLevel false).isSome) →
      ∃ ws traces1,
        ks.foldlM (fun (st : RenderState) (k : Nat) => pixelBody E stack rt scene i (k : Int) st)
            (⟨some fb, traces⟩ : RenderState)
          = some ⟨some { fb with writes := fb.writes ++ ws }, traces1⟩ ∧
        ws.map (fun w => (w.x, w.y)) = ks.map (fun (k : Nat) => ((k : Int), i)) ∧
        ∀ w ∈ ws, ∃ r, TraceScene E rt.m_traceflag scene stack (viewRay E rt scene w.y w.x)
          scene.backgroundColour rt.m_traceLevel false = some r ∧ w.colour = r.colour := by
  intro ks
  induction ks with
  | nil =>
    intro fb traces _
    exact ⟨[], traces, by simp, rfl, by simp⟩
  | cons k rest ih =>
    intro fb traces hall
    have hk := hall k (List.mem_cons_self k rest)
    obtain ⟨r, hr⟩ := Option.isSome_iff_exists.mp hk
    obtain ⟨ws, traces1, h1, h2, h3⟩ := ih (fb.WriteRGBToFramebuffer r.colour k i)
      (traces ++ [⟨viewRay E rt scene i k, scene.backgroundColour, rt.m_traceLevel, false, 0⟩])
      (fun k1 hk1 => hall k1 (List.mem_cons_of_mem k hk1))
    refine ⟨⟨r.colour, k, i⟩ :: ws, traces1, ?_, ?_, ?_⟩
    · have hstep : pixelBody E stack rt scene i (k : Int) ⟨some fb, traces⟩
          = some ⟨some (fb.WriteRGBToFramebuffer r.colour k i),
              traces ++ [⟨viewRay E rt scene i k, scene.backgroundColour, rt.m_traceLevel,
                false, 0⟩]⟩ := by
        simp only [pixelBody, hr]
      rw [List.foldlM_cons, hstep]
      simp only [Option.bind_eq_bind, Option.some_bind]
      rw [h1]
      simp [Framebuffer.WriteRGBToFramebuffer]
    · simp only [List.map_cons, h2]
    · intro w hw
      rcases List.mem_cons.mp hw with rfl | hw
      · exact ⟨r, hr, rfl⟩
      · exact h3 w hw

/-- The outer pixel loop over any list of row indices `rows`, with the columns `ks`: if the
trace of every pixel returns, the loop returns, having appended one write per pixel, row
by row. -/
theorem rowLoop_returns (E : Externals) (stack : Nat) (rt : RayTracer) (scene : Scene)
    (ks : List Nat) :
    ∀ (rows : List Nat) (fb : Framebuffer) (traces : List Call),
      (∀ i ∈ rows, ∀ k ∈ ks, (TraceScene E rt.m_traceflag scene stack
          (viewRay E rt scene (i : Int) (k : Int)) scene.backgroundColour
          rt.m_traceLevel false).isSome) →
      ∃ ws traces1,
        rows.foldlM (fun (st : RenderState) (i : Nat) =>
            ks.foldlM (fun (st1 : RenderState) (k : Nat) =>
              pixelBody E stack rt scene (i : Int) (k : Int) st1) st)
            (⟨some fb, traces⟩ : RenderState)
          = some ⟨some { fb with writes := fb.writes ++ ws }, traces1⟩ ∧
        ws.map (fun w => (w.x, w.y))
          = rows.flatMap (fun (i : Nat) => ks.map (fun (k : Nat) => ((k : Int), (i : Int)))) ∧
        ∀ w ∈ ws, ∃ r, TraceScene E rt.m_traceflag scene stack (viewRay E rt scene w.y w.x)
          scene.backgroundColour rt.m_traceLevel false = some r ∧ w.colour = r.colour := by
  intro rows
  induction rows with
  | nil =>
    intro fb traces _
    exact ⟨[], traces, by simp, rfl, by simp⟩
  | cons i rest ih =>
    intro fb traces hall
    obtain ⟨ws0, traces0, g1, g2, g3⟩ := columnLoop_returns E stack rt scene (i : Int) ks fb
      traces (hall i (List.mem_cons_self i rest))
    obtain ⟨ws, traces1, h1, h2, h3⟩ := ih { fb with writes := fb.writes ++ ws0 } traces0
      (fun i1 hi1 => hall i1 (List.mem_cons_of_mem i hi1))
    refine ⟨ws0 ++ ws, traces1, ?_, ?_, ?_⟩
    · rw [List.foldlM_cons, g1]
      simp only [Option.bind_eq_bind, Option.some_bind]
      rw [h1]
      simp
    · simp only [List.map_append, g2, h2, List.flatMap_cons]
    · intro w hw
      rcases List.mem_append.mp hw with hw | hw
      · exact g3 w hw
      · exact h3 w hw

/-- The cells visited by the pixel loops are pairwise distinct. -/
theorem pixel_cells_nodup (H W : Nat) :
    ((List.range H).flatMap
      (fun (i : Nat) => (List.range W).map (fun (k : Nat) => ((k : Int), (i : Int))))).Nodup := by
  rw [List.nodup_flatMap]
  constructor
  · intro i _
    refine (List.nodup_range W).map ?_
    intro a b hab
    simpa using hab
  · refine (List.nodup_range H).imp ?_
    intro a b hab
    simp only [Function.onFun, List.disjoint_left, List.mem_map, not_exists, not_and]
    rintro c ⟨k, _, rfl⟩ k1 _ hk
    simp only [Prod.mk.injEq, Nat.cast_inj] at hk
    exact hab hk.2.symm

/-- In a list whose images under `f` are pairwise distinct, exactly one element is sent
to a given image that occurs. -/
theorem countP_eq_one_of_nodup_map {α β : Type} [DecidableEq β] (f : α → β) (l : List α)
    (hnodup : (l.map f).Nodup) (b : β) (hb : b ∈ l.map f) :
    l.countP (fun a => decide (f a = b)) = 1 := by
  induction l with
  | nil => simp at hb
  | cons x xs ih =>
    rw [List.map_cons, List.nodup_cons] at hnodup
    by_cases hx : f x = b
    · rw [List.countP_cons_of_pos _ _ (by simpa using hx)]
      have hzero : xs.countP (fun a => decide (f a = b)) = 0 := by
        rw [List.countP_eq_zero]
        intro a ha hfa
        apply hnodup.1
        rw [hx]
        simp only [decide_eq_true_eq] at hfa
        rw [← hfa]
        exact List.mem_map_of_mem f ha
      rw [hzero]
    · rw [List.countP_cons_of_neg _ _ (by simpa using hx)]
      apply ih hnodup.2
      rw [List.map_cons, List.mem_cons] at hb
      rcases hb with hb | hb
      · exact absurd hb.symm hx
      · exact hb

/-- The view ray of `DoRayTrace` in vector form: from the camera position, along the
normalised vector to `start + (i + 0.5) up pixelDY + (j + 0.5) right pixelDX`. -/
theorem viewRay_eq (E : Externals) (rt : RayTracer) (scene : Scene) (i j : Int) :
    viewRay E rt scene i j =
      ⟨scene.camera.position,
       E.Normalise ((((scene.camera.viewCentre.sub
            (((scene.camera.right.scale scene.sceneWidth).add
              (scene.camera.up.scale scene.sceneHeight)).scale (1/2))).add
          (scene.camera.up.scale (((i : ℚ) + 1/2) * (scene.sceneHeight / (rt.m_buffHeight : ℚ))))).add
          (scene.camera.right.scale (((j : ℚ) + 1/2) * (scene.sceneWidth / (rt.m_buffWidth : ℚ))))).sub
        scene.camera.position)⟩ := by
  unfold viewRay pixelCentre viewStart
  simp only [Vector3.sub, Vector3.add, Vector3.scale]
  congr 3 <;> ring

/-- C8: a `DoRayTrace` call made while the render count is non-zero returns the tracer as it
was (framebuffer and render count unchanged) and invokes no trace; a call made while the count
is `0`, once it has returned, has set the count to `1`; hence a second call right after a call
that returned leaves the state of the first call unchanged and invokes no trace. -/
theorem DoRayTrace_at_most_once (E : Externals) (stack : Nat) (rt : RayTracer) (scene : Scene) :
    (rt.m_renderCount ≠ 0 → DoRayTrace E stack rt scene = some (rt, [])) ∧
    (∀ rt1 traces, DoRayTrace E stack rt scene = some (rt1, traces) →
      (rt.m_renderCount = 0 → rt1.m_renderCount = 1) ∧
      DoRayTrace E stack rt1 scene = some (rt1, [])) := by
  have hskip : ∀ t : RayTracer, t.m_renderCount ≠ 0 → DoRayTrace E stack t scene = some (t, []) := by
    intro t ht
    simp [DoRayTrace, ht]
  refine ⟨hskip rt, ?_⟩
  intro rt1 traces h
  by_cases h0 : rt.m_renderCount = 0
  · simp only [DoRayTrace, h0, if_true] at h
    cases hl : forLoop rt.m_buffHeight
        (fun i => forLoop rt.m_buffWidth (fun j => pixelBody E stack rt scene i j))
        (⟨rt.m_framebuffer, []⟩ : RenderState) with
    | none => simp [hl] at h
    | some st =>
      simp only [hl, Option.some.injEq, Prod.mk.injEq] at h
      have hc : rt1.m_renderCount = 1 := by
        rw [← h.1]
        simp
      exact ⟨fun _ => hc, hskip rt1 (by rw [hc]; decide)⟩
  · rw [hskip rt h0] at h
    simp only [Option.some.injEq, Prod.mk.injEq] at h
    refine ⟨fun hh => absurd hh h0, ?_⟩
    rw [← h.1]
    exact hskip rt h0

/-- C7: for a tracer whose render count is `0` (with its framebuffer allocated), if the trace
of every pixel's view ray returns, `DoRayTrace` returns, and the writes `ws` it has appended to
the framebuffer are such that every cell (column `j`, row `i`) with `0 ≤ i < height` and
`0 ≤ j < width` is written exactly once, no cell outside that range is written, and the
colour written to a cell is the one `TraceScene` returns for the scene, the background colour,
the configured depth and the ray that starts at the camera position and points along the
normalised vector from the camera position to
`start + (i + 0.5) up pixelDY + (j + 0.5) right pixelDX`, where
`start = viewCentre - (sceneWidth right + sceneHeight up) / 2`, `pixelDX = sceneWidth / width`
and `pixelDY = sceneHeight / height`. -/
theorem DoRayTrace_writes_every_pixel (E : Externals) (stack : Nat) (rt : RayTracer)
    (scene : Scene) (fb : Framebuffer)
    (hcount : rt.m_renderCount = 0) (hfb : rt.m_framebuffer = some fb)
    (hret : ∀ i j : Int, 0 ≤ i → i < rt.m_buffHeight → 0 ≤ j → j < rt.m_buffWidth →
      (TraceScene E rt.m_traceflag scene stack (viewRay E rt scene i j)
        scene.backgroundColour rt.m_traceLevel false).isSome) :
    ∃ rt1 traces ws, DoRayTrace E stack rt scene = some (rt1, traces) ∧
      rt1.m_framebuffer = some { fb with writes := fb.writes ++ ws } ∧
      (∀ i j : Int, 0 ≤ i → i < rt.m_buffHeight → 0 ≤ j → j < rt.m_buffWidth →
        ws.countP (fun w => decide (w.x = j ∧ w.y = i)) = 1) ∧
      (∀ w ∈ ws, (0 ≤ w.y ∧ w.y < rt.m_buffHeight ∧ 0 ≤ w.x ∧ w.x < rt.m_buffWidth) ∧
        ∃ r, TraceScene E rt.m_traceflag scene stack
            ⟨scene.camera.position,
             E.Normalise ((((scene.camera.viewCentre.sub
                  (((scene.camera.right.scale scene.sceneWidth).add
                    (scene.camera.up.scale scene.sceneHeight)).scale (1/2))).add
                (scene.camera.up.scale
                  (((w.y : ℚ) + 1/2) * (scene.sceneHeight / (rt.m_buffHeight : ℚ))))).add
                (scene.camera.right.scale
                  (((w.x : ℚ) + 1/2) * (scene.sceneWidth / (rt.m_buffWidth : ℚ))))).sub
              scene.camera.position)⟩
            scene.backgroundColour rt.m_traceLevel false = some r ∧
          w.colour = r.colour) := by
  obtain ⟨ws, traces1, h1, h2, h3⟩ := rowLoop_returns E stack rt scene
    (List.range rt.m_buffWidth.toNat) (List.range rt.m_buffHeight.toNat) fb []
    (fun i hi k hk => hret i k (Int.ofNat_nonneg i)
      (Int.lt_toNat.mp (List.mem_range.mp hi)) (Int.ofNat_nonneg k)
      (Int.lt_toNat.mp (List.mem_range.mp hk)))
  have hcells : ∀ i j : Int, (j, i) ∈ ws.map (fun w => (w.x, w.y)) ↔
      (0 ≤ i ∧ i < rt.m_buffHeight) ∧ (0 ≤ j ∧ j < rt.m_buffWidth) := by
    intro i j
    rw [h2]
    simp only [List.mem_flatMap, List.mem_map, List.mem_range, Prod.mk.injEq]
    constructor
    · rintro ⟨i1, hi1, k1, hk1, rfl, rfl⟩
      exact ⟨⟨Int.ofNat_nonneg _, Int.lt_toNat.mp hi1⟩, Int.ofNat_nonneg _, Int.lt_toNat.mp hk1⟩
    · rintro ⟨⟨hi0, hi1⟩, hj0, hj1⟩
      refine ⟨i.toNat, ?_, j.toNat, ?_, Int.toNat_of_nonneg hj0, Int.toNat_of_nonneg hi0⟩
      · rw [Int.lt_toNat, Int.toNat_of_nonneg hi0]
        exact hi1
      · rw [Int.lt_toNat, Int.toNat_of_nonneg hj0]
        exact hj1
  have hnodup : (ws.map (fun w => (w.x, w.y))).Nodup := by
    rw [h2]
    exact pixel_cells_nodup _ _
  refine ⟨{ rt with m_framebuffer := some { fb with writes := fb.writes ++ ws },
                    m_renderCount := rt.m_renderCount + 1 }, traces1, ws, ?_, rfl, ?_, ?_⟩
  · simp only [DoRayTrace, hcount, if_true, forLoop, hfb, h1]
  · intro i j hi0 hi1 hj0 hj1
    have hc := countP_eq_one_of_nodup_map (fun w : PixelWrite => (w.x, w.y)) ws hnodup (j, i)
      ((hcells i j).mpr ⟨⟨hi0, hi1⟩, hj0, hj1⟩)
    rw [← hc]
    apply List.countP_congr
    intro w _
    simp
  · intro w hw
    have hmem : (w.x, w.y) ∈ ws.map (fun w => (w.x, w.y)) := List.mem_map_of_mem _ hw
    obtain ⟨⟨hy0, hy1⟩, hx0, hx1⟩ := (hcells w.y w.x).mp hmem
    refine ⟨⟨hy0, hy1, hx0, hx1⟩, ?_⟩
    obtain ⟨r, hr, hc⟩ := h3 w hw
    rw [viewRay_eq] at hr
    exact ⟨r, hr, hc⟩

/-- Witness for C7: `RayTracer(2, 2)` rendering the floor scene; the cell in column `1`,
row `0` is written exactly once and every write lies inside the 2 × 2 buffer. -/
theorem DoRayTrace_writes_every_pixel_witness :
    (RayTracer.ctorWH 2 2).m_renderCount = 0 ∧
    ∃ rt1 traces ws,
      DoRayTrace sampleExternals 1 (RayTracer.ctorWH 2 2) floorScene = some (rt1, traces) ∧
      rt1.m_framebuffer = some ⟨2, 2, ws⟩ ∧
      ws.countP (fun w => decide (w.x = 1 ∧ w.y = 0)) = 1 ∧
      ∀ w ∈ ws, (0 ≤ w.y ∧ w.y < 2 ∧ 0 ≤ w.x ∧ w.x < 2) := by
  obtain ⟨rt1, traces, ws, h1, h2, h3, h4⟩ := DoRayTrace_writes_every_pixel sampleExternals 1
    (RayTracer.ctorWH 2 2) floorScene ⟨2, 2, []⟩ rfl rfl (fun i j _ _ _ _ => rfl)
  exact ⟨rfl, rt1, traces, ws, h1, by simpa using h2,
    h3 0 1 (by decide) (by decide) (by decide) (by decide), fun w hw => (h4 w hw).1⟩

/-- Witness for C8: `RayTracer(1, 1)` rendering the empty scene twice; the first call leaves
the tracer `renderedOnce` (one trace invoked), the second leaves it as it is and invokes no
trace. -/
theorem DoRayTrace_at_most_once_witness :
    DoRayTrace sampleExternals 1 (RayTracer.ctorWH 1 1) emptyScene
      = some (renderedOnce,
          [⟨viewRay sampleExternals (RayTracer.ctorWH 1 1) emptyScene 0 0, ⟨0, 0, 1⟩, 5,
            false, 0⟩]) ∧
    renderedOnce.m_renderCount = 1 ∧
    DoRayTrace sampleExternals 1 renderedOnce emptyScene = some (renderedOnce, []) :=
  ⟨rfl,
   ((DoRayTrace_at_most_once sampleExternals 1 (RayTracer.ctorWH 1 1) emptyScene).2
      renderedOnce _ rfl).1 rfl,
   ((DoRayTrace_at_most_once sampleExternals 1 (RayTracer.ctorWH 1 1) emptyScene).2
      renderedOnce _ rfl).2⟩

/-! ## Constructors -/

/-- C10 (as stated, refuted): the tracer built by `RayTracer(4, 4)` has `DIFFUSE_AND_SPEC`,
`SHADOW` and `REFLECTION` all disabled. -/
theorem ctorWH_flags_not_all_enabled :
    flagSet (RayTracer.ctorWH 4 4).m_traceflag TRACE_DIFFUSE_AND_SPEC = false ∧
    flagSet (RayTracer.ctorWH 4 4).m_traceflag TRACE_SHADOW = false ∧
    flagSet (RayTracer.ctorWH 4 4).m_traceflag TRACE_REFLECTION = false := by
  decide

/-- C10 (amended): the tracer built by `RayTracer()` has `AMBIENT`, `DIFFUSE_AND_SPEC`,
`SHADOW`, `REFLECTION` and `REFRACTION` all enabled; the tracer built by
`RayTracer(width, height)` has the mask `TRACE_AMBIENT` exactly: `AMBIENT` enabled and the
other four flags disabled, for every width and height. -/
theorem constructor_flags (Width Height : Int) :
    (flagSet RayTracer.ctor.m_traceflag TRACE_AMBIENT = true ∧
     flagSet RayTracer.ctor.m_traceflag TRACE_DIFFUSE_AND_SPEC = true ∧
     flagSet RayTracer.ctor.m_traceflag TRACE_SHADOW = true ∧
     flagSet RayTracer.ctor.m_traceflag TRACE_REFLECTION = true ∧
     flagSet RayTracer.ctor.m_traceflag TRACE_REFRACTION = true) ∧
    ((RayTracer.ctorWH Width Height).m_traceflag = TRACE_AMBIENT ∧
     flagSet (RayTracer.ctorWH Width Height).m_traceflag TRACE_AMBIENT = true ∧
     flagSet (RayTracer.ctorWH Width Height).m_traceflag TRACE_DIFFUSE_AND_SPEC = false ∧
     flagSet (RayTracer.ctorWH Width Height).m_traceflag TRACE_SHADOW = false ∧
     flagSet (RayTracer.ctorWH Width Height).m_traceflag TRACE_REFLECTION = false ∧
     flagSet (RayTracer.ctorWH Width Height).m_traceflag TRACE_REFRACTION = false) := by
  refine ⟨by decide, rfl, ?_⟩
  have e : (RayTracer.ctorWH Width Height).m_traceflag = TRACE_AMBIENT := rfl
  rw [e]
  decide

/-! ## Refraction -/

/-- Toggling the refraction bit does not change the test of a flag that shares no bit
with it. -/
theorem flagSet_xor_refraction (f flag : Nat) (h : TRACE_REFRACTION &&& flag = 0) :
    flagSet (f ^^^ TRACE_REFRACTION) flag = flagSet f flag := by
  unfold flagSet
  rw [Nat.and_xor_distrib_right, h, Nat.xor_zero]

/-- C11: REFRACTION is a no-op. For every scene, ray, fallback colour, depth budget, shadow
flag and stack bound, `TraceScene` run with the flag mask `f` with its REFRACTION bit toggled
gives the same outcome as with `f`: the same colour, the same final ray and the same
recursive calls (or no return in both cases). -/
theorem TraceScene_refraction_noop (E : Externals) (f : Nat) (scene : Scene) (stack : Nat)
    (ray : Ray) (incolour : Colour) (tracelevel : Int) (shadowray : Bool) :
    TraceScene E (f ^^^ TRACE_REFRACTION) scene stack ray incolour tracelevel shadowray
      = TraceScene E f scene stack ray incolour tracelevel shadowray := by
  have hd := flagSet_xor_refraction f TRACE_DIFFUSE_AND_SPEC (by decide)
  have hs := flagSet_xor_refraction f TRACE_SHADOW (by decide)
  have hr := flagSet_xor_refraction f TRACE_REFLECTION (by decide)
  have hCL : ∀ lights campos hit, CalculateLighting E (f ^^^ TRACE_REFRACTION) lights campos hit
      = CalculateLighting E f lights campos hit := by
    intro lights campos hit
    simp only [CalculateLighting, hd]
  have hRS : ∀ trace result prim s fr,
      reflectionStep E (f ^^^ TRACE_REFRACTION) scene trace result prim s fr
        = reflectionStep E f scene trace result prim s fr := by
    intro trace result prim s fr
    simp only [reflectionStep, hr]
  have hSS : ∀ trace result fr, shadowStep E (f ^^^ TRACE_REFRACTION) scene trace result fr
      = shadowStep E f scene trace result fr := by
    intro trace result fr
    simp only [shadowStep, hs]
  induction stack generalizing ray incolour tracelevel shadowray with
  | zero => rfl
  | succ n ih =>
    have hfun : TraceScene E (f ^^^ TRACE_REFRACTION) scene n = TraceScene E f scene n := by
      funext a b c d
      exact ih a b c d
    simp only [TraceScene, hfun, hCL, hRS, hSS]

/-! ## The depth budget handed to recursive calls -/

/-- C12 (the code at a failing input): in the one-sphere scene with two lights, a call with
depth budget `5` hands `5` (and not `4`) to its reflection call and then `4` and `3` to its two
shadow calls; with reflection switched off the two shadow calls receive `5` and `4`. -/
theorem TraceScene_budget_passed_before_decrement :
    (TraceScene sampleExternals reflectiveFlags oneHitScene 2 sampleRay
        ⟨0, 0, 1⟩ 5 false).map
        (fun r => r.calls.map (fun c => (c.tracelevel, c.shadowray, c.depth)))
      = some [(5, false, 0), (4, true, 0), (3, true, 0)] ∧
    (TraceScene sampleExternals (TRACE_AMBIENT ||| TRACE_SHADOW) oneHitScene 2 sampleRay
        ⟨0, 0, 1⟩ 5 false).map
        (fun r => r.calls.map (fun c => (c.tracelevel, c.shadowray, c.depth)))
      = some [(5, true, 0), (4, true, 0)] := by
  have hf : flagSet reflectiveFlags TRACE_REFLECTION = true := by decide
  have hs : flagSet reflectiveFlags TRACE_SHADOW = true := by decide
  have hd : flagSet reflectiveFlags TRACE_DIFFUSE_AND_SPEC = true := by decide
  have hf2 : flagSet (TRACE_AMBIENT ||| TRACE_SHADOW) TRACE_REFLECTION = false := by decide
  have hs2 : flagSet (TRACE_AMBIENT ||| TRACE_SHADOW) TRACE_SHADOW = true := by decide
  have hd2 : flagSet (TRACE_AMBIENT ||| TRACE_SHADOW) TRACE_DIFFUSE_AND_SPEC = false := by
    decide
  constructor
  · simp [TraceScene, oneHitScene, mirrorScene, sampleRay, sampleCamera, CalculateLighting,
      reflectionStep, shadowStep, shadowLoop, hf, hs, hd, sampleSphere, Ray.SetRay, Vector3.add,
      Vector3.scale, Vector3.sub, sampleExternals, nested]
  · simp [TraceScene, oneHitScene, mirrorScene, sampleRay, sampleCamera, CalculateLighting,
      reflectionStep, shadowStep, shadowLoop, hf2, hs2, hd2, sampleSphere, Ray.SetRay,
      Vector3.add, Vector3.scale, Vector3.sub, sampleExternals, nested]

/-! ## The diffuse term and the light colour -/

/-- C17 (as stated, refuted): for the normal `(0, 0, 1)` and the light direction `(0, 0, -1)`
the dot product is negative, and `CalculateDiffuse` returns `(-1, -1, -1)` for a white light
on the sample material, not the zero colour that clamping at zero would give. -/
theorem CalculateDiffuse_not_clamped :
    (⟨0, 0, 1⟩ : Vector3).DotProduct ⟨0, 0, -1⟩ < 0 ∧
    CalculateDiffuse ⟨0, 0, 1⟩ ⟨0, 0, -1⟩ ⟨⟨0, 10, 0⟩, ⟨1, 1, 1⟩⟩ sampleMaterial = ⟨-1, -1, -1⟩ ∧
    CalculateDiffuse ⟨0, 0, 1⟩ ⟨0, 0, -1⟩ ⟨⟨0, 10, 0⟩, ⟨1, 1, 1⟩⟩ sampleMaterial
      ≠ (Vector3.mul ⟨1, 1, 1⟩ sampleMaterial.diffuse).scale
          (max 0 ((⟨0, 0, 1⟩ : Vector3).DotProduct ⟨0, 0, -1⟩)) := by
  refine ⟨?_, ?_, ?_⟩ <;>
    norm_num [CalculateDiffuse, Vector3.DotProduct, Vector3.mul, Vector3.scale, sampleMaterial]

/-- C17 (amended): the diffuse contribution computed by `CalculateDiffuse` is
`light_colour * material.diffuse * dot(normal, light_direction)` in each component, the dot
product taken as it is, for every normal and light direction; it agrees with the clamped
formula `light_colour * material.diffuse * max(0, dot)` when the dot product is not negative. -/
theorem CalculateDiffuse_unclamped (surfaceNorm lightDirection : Vector3) (light : Light)
    (material : Material) :
    CalculateDiffuse surfaceNorm lightDirection light material =
      ⟨light.colour.x * material.diffuse.x * surfaceNorm.DotProduct lightDirection,
       light.colour.y * material.diffuse.y * surfaceNorm.DotProduct lightDirection,
       light.colour.z * material.diffuse.z * surfaceNorm.DotProduct lightDirection⟩ ∧
    (0 ≤ surfaceNorm.DotProduct lightDirection →
      CalculateDiffuse surfaceNorm lightDirection light material =
        (light.colour.mul material.diffuse).scale
          (max 0 (surfaceNorm.DotProduct lightDirection))) := by
  refine ⟨rfl, ?_⟩
  intro h
  rw [max_eq_right h]
  rfl

/-- Witness for C17 (amended): normal and light direction both `(0, 0, 1)`, a half-bright
light, the sample material. -/
theorem CalculateDiffuse_unclamped_witness :
    0 ≤ (⟨0, 0, 1⟩ : Vector3).DotProduct ⟨0, 0, 1⟩ ∧
    CalculateDiffuse ⟨0, 0, 1⟩ ⟨0, 0, 1⟩ ⟨⟨0, 10, 0⟩, ⟨1/2, 1/2, 1/2⟩⟩ sampleMaterial =
      (Vector3.mul ⟨1/2, 1/2, 1/2⟩ sampleMaterial.diffuse).scale
        (max 0 ((⟨0, 0, 1⟩ : Vector3).DotProduct ⟨0, 0, 1⟩)) :=
  ⟨by norm_num [Vector3.DotProduct],
   (CalculateDiffuse_unclamped ⟨0, 0, 1⟩ ⟨0, 0, 1⟩ ⟨⟨0, 10, 0⟩, ⟨1/2, 1/2, 1/2⟩⟩
      sampleMaterial).2 (by norm_num [Vector3.DotProduct])⟩

/-- The lighting loop reads only the positions of the lights. -/
theorem lightingLoop_positions (E : Externals) (mat : Material) (hitresult : RayHitResult) :
    ∀ (lights1 lights2 : List Light) (outcolour : Colour),
      lights1.map Light.position = lights2.map Light.position →
      lightingLoop E mat hitresult lights1 outcolour
        = lightingLoop E mat hitresult lights2 outcolour := by
  intro lights1
  induction lights1 with
  | nil =>
    intro lights2 outcolour h
    cases lights2 with
    | nil => rfl
    | cons b rest => simp at h
  | cons a rest ih =>
    intro lights2 outcolour h
    cases lights2 with
    | nil => simp at h
    | cons b rest2 =>
      simp only [List.map_cons, List.cons.injEq] at h
      simp only [lightingLoop, h.1]
      exact ih rest2 _ h.2

/-- C20: the result of `CalculateLighting` does not depend on the colour of any light in the
list: two light lists with the same positions in the same order give the same shading colour,
for every hit and every flag setting (the diffuse and specular terms use a default-constructed
`Light`). -/
theorem CalculateLighting_ignores_light_colour (E : Externals) (m_traceflag : Nat)
    (lights1 lights2 : List Light) (campos : Vector3) (hitresult : RayHitResult)
    (hpos : lights1.map Light.position = lights2.map Light.position) :
    CalculateLighting E m_traceflag lights1 campos hitresult
      = CalculateLighting E m_traceflag lights2 campos hitresult := by
  unfold CalculateLighting
  cases hitresult.data with
  | none => rfl
  | some prim =>
    simp only [lightingLoop_positions E prim.material hitresult lights1 lights2 _ hpos]

/-- Witness for C20: a white and a red light at the same position, all flags set, a hit on
the sample sphere. -/
theorem CalculateLighting_ignores_light_colour_witness :
    CalculateLighting sampleExternals 31 [⟨⟨0, 10, 0⟩, ⟨1, 1, 1⟩⟩] ⟨0, 0, -10⟩
        ⟨⟨0, 0, 0⟩, ⟨0, 0, -1⟩, some sampleSphere⟩
      = CalculateLighting sampleExternals 31 [⟨⟨0, 10, 0⟩, ⟨1, 0, 0⟩⟩] ⟨0, 0, -10⟩
        ⟨⟨0, 0, 0⟩, ⟨0, 0, -1⟩, some sampleSphere⟩ :=
  CalculateLighting_ignores_light_colour sampleExternals 31 [⟨⟨0, 10, 0⟩, ⟨1, 1, 1⟩⟩]
    [⟨⟨0, 10, 0⟩, ⟨1, 0, 0⟩⟩] ⟨0, 0, -10⟩ ⟨⟨0, 0, 0⟩, ⟨0, 0, -1⟩, some sampleSphere⟩ rfl

/-! ## The recursive tracer: reflection -/

/-- C14: with REFLECTION set, for a non-shadow ray that hits a primitive that is not a plane,
let `lit` be the local shading colour and let the recursive trace of the reflection ray
(origin the hit point, direction
`cameraPosition + reflect(incoming direction, normal) * (-3.5 * dot(cameraPosition, cameraView))`),
run with `lit` as its fallback colour, return `r`. Then the reflection block leaves the running
colour `lit * r.colour` (component-wise) and the ray as `r` left it, having recorded one
non-shadow call whose fallback is `lit`; `TraceScene` continues from there with the shadow
block, and when SHADOW is clear it returns exactly `lit * r.colour`. -/
theorem TraceScene_reflection_multiplies (E : Externals) (m_traceflag : Nat) (scene : Scene)
    (stack : Nat) (ray : Ray) (incolour : Colour) (tracelevel : Int) (prim : Primitive)
    (lit : Colour) (r : TraceOut)
    (hhit : (scene.IntersectByRay ray false).data = some prim)
    (hnotplane : prim.m_primtype ≠ PRIMTYPE.PRIMTYPE_Plane)
    (hrefl : flagSet m_traceflag TRACE_REFLECTION = true)
    (hlit : CalculateLighting E m_traceflag scene.lightList ray.start
      (scene.IntersectByRay ray false) = some lit)
    (hr : TraceScene E m_traceflag scene stack
      ⟨(scene.IntersectByRay ray false).point,
       scene.camera.position.add
        ((E.Reflect ray.direction (scene.IntersectByRay ray false).normal).scale
          ((-7/2) * scene.camera.position.DotProduct scene.camera.view))⟩
      lit tracelevel false = some r) :
    let reflRay : Ray :=
      ⟨(scene.IntersectByRay ray false).point,
       scene.camera.position.add
        ((E.Reflect ray.direction (scene.IntersectByRay ray false).normal).scale
          ((-7/2) * scene.camera.position.DotProduct scene.camera.view))⟩
    let after : Frame :=
      ⟨r.ray, lit.mul r.colour, tracelevel - 1,
        ⟨reflRay, lit, tracelevel, false, 0⟩ :: nested r.calls⟩
    reflectionStep E m_traceflag scene (TraceScene E m_traceflag scene stack)
        (scene.IntersectByRay ray false) prim false ⟨ray, lit, tracelevel, []⟩ = some after ∧
    TraceScene E m_traceflag scene (stack + 1) ray incolour tracelevel false =
      (shadowStep E m_traceflag scene (TraceScene E m_traceflag scene stack)
        (scene.IntersectByRay ray false) after).map
        (fun fr2 => ⟨fr2.outcolour, fr2.ray, fr2.calls⟩) ∧
    (flagSet m_traceflag TRACE_SHADOW = false →
      TraceScene E m_traceflag scene (stack + 1) ray incolour tracelevel false =
        some ⟨lit.mul r.colour, r.ray, ⟨reflRay, lit, tracelevel, false, 0⟩ :: nested r.calls⟩) := by
  intro reflRay after
  have hstep : reflectionStep E m_traceflag scene (TraceScene E m_traceflag scene stack)
      (scene.IntersectByRay ray false) prim false ⟨ray, lit, tracelevel, []⟩ = some after := by
    simp only [reflectionStep, hrefl, hnotplane, if_true, ne_eq, not_false_eq_true, Ray.SetRay,
      hr, List.nil_append]
  have hmain : TraceScene E m_traceflag scene (stack + 1) ray incolour tracelevel false =
      (shadowStep E m_traceflag scene (TraceScene E m_traceflag scene stack)
        (scene.IntersectByRay ray false) after).map
        (fun fr2 => ⟨fr2.outcolour, fr2.ray, fr2.calls⟩) := by
    rw [TraceScene_hit E m_traceflag scene stack ray incolour tracelevel prim hhit, hlit]
    simp only [Option.some_bind, hstep]
  refine ⟨hstep, hmain, ?_⟩
  intro hs
  rw [hmain]
  simp only [shadowStep, hs]
  rfl

/-- Witness for C14: the one-sphere scene with ambient and reflection switched on; the local
colour is the red ambient colour, the reflection ray `(0,0,0) → (0,0,-45)` misses and so
returns the local colour, and the result is red times red. -/
theorem TraceScene_reflection_multiplies_witness :
    TraceScene sampleExternals (TRACE_AMBIENT ||| TRACE_REFLECTION) oneHitScene 2 sampleRay
        ⟨0, 0, 1⟩ 5 false =
      some ⟨Vector3.mul ⟨1, 0, 0⟩ ⟨1, 0, 0⟩, ⟨⟨0, 0, 0⟩, ⟨0, 0, -45⟩⟩,
        [⟨⟨⟨0, 0, 0⟩, ⟨0, 0, -45⟩⟩, ⟨1, 0, 0⟩, 5, false, 0⟩]⟩ := by
  have hd : flagSet (TRACE_AMBIENT ||| TRACE_REFLECTION) TRACE_DIFFUSE_AND_SPEC = false := by
    decide
  have hray : (⟨(oneHitScene.IntersectByRay sampleRay false).point,
      oneHitScene.camera.position.add
        ((sampleExternals.Reflect sampleRay.direction
            (oneHitScene.IntersectByRay sampleRay false).normal).scale
          ((-7/2) * oneHitScene.camera.position.DotProduct oneHitScene.camera.view))⟩ : Ray)
      = ⟨⟨0, 0, 0⟩, ⟨0, 0, -45⟩⟩ := by
    norm_num [oneHitScene, mirrorScene, sampleRay, sampleCamera, sampleExternals, Vector3.add,
      Vector3.sub, Vector3.scale, Vector3.DotProduct]
  have h := (TraceScene_reflection_multiplies sampleExternals (TRACE_AMBIENT ||| TRACE_REFLECTION)
    oneHitScene 1 sampleRay ⟨0, 0, 1⟩ 5 sampleSphere ⟨1, 0, 0⟩
    ⟨⟨1, 0, 0⟩, ⟨⟨0, 0, 0⟩, ⟨0, 0, -45⟩⟩, []⟩ rfl (by decide) (by decide)
    (by simp [CalculateLighting, oneHitScene, mirrorScene, sampleRay, sampleSphere,
      sampleMaterial, sampleCamera, hd])
    (by rw [hray]; simp [TraceScene, oneHitScene, mirrorScene, sampleCamera])).2.2 (by decide)
  rw [hray] at h
  exact h

/-! ## The recursive tracer: the shadow rays -/

/-- A `TraceScene` call with `shadowray = true` that returns has left its ray as it was and
has made no call. -/
theorem TraceScene_shadow_leaf (E : Externals) (m_traceflag : Nat) (scene : Scene) (stack : Nat)
    (ray : Ray) (incolour : Colour) (tracelevel : Int) (o : TraceOut)
    (h : TraceScene E m_traceflag scene stack ray incolour tracelevel true = some o) :
    o.ray = ray ∧ o.calls = [] := by
  cases stack with
  | zero => simp [TraceScene] at h
  | succ n =>
    rw [TraceScene_shadowray] at h
    simp only [Option.some.injEq] at h
    rw [← h]
    exact ⟨rfl, rfl⟩

/-- The calls of a callee, seen from the caller, are never at depth `0`. -/
theorem nested_depth_pos (cs : List Call) : ∀ c ∈ nested cs, c.depth ≠ 0 := by
  intro c hc
  simp only [nested, List.mem_map] at hc
  obtain ⟨c0, _, rfl⟩ := hc
  exact Nat.succ_ne_zero _

/-- The shadow loop, for any recursive tracer whose shadow calls are leaves: when it returns,
it has recorded one call per light, in order, each at depth `0` with `shadowray = true` and
with the shadow ray of its light. -/
theorem shadowLoop_calls (E : Externals) (trace : Ray → Colour → Int → Bool → Option TraceOut)
    (result : RayHitResult)
    (hleaf : ∀ ray c l o, trace ray c l true = some o → o.ray = ray ∧ o.calls = []) :
    ∀ (lights : List Light) (fr fr1 : Frame),
      shadowLoop E trace result lights fr = some fr1 →
      ∃ cs, fr1.calls = fr.calls ++ cs ∧
        cs.map Call.ray = lights.map (shadowRayFor E result.point) ∧
        (∀ c ∈ cs, c.shadowray = true ∧ c.depth = 0) := by
  intro lights
  induction lights with
  | nil =>
    intro fr fr1 h
    simp only [shadowLoop, Option.some.injEq] at h
    exact ⟨[], by rw [h]; simp, rfl, by simp⟩
  | cons lit rest ih =>
    intro fr fr1 h
    simp only [shadowLoop] at h
    generalize ht : trace (fr.ray.SetRay
        (result.point.add ((E.Normalise (lit.position.sub result.point)).scale (1/10000)))
        (E.Normalise (lit.position.sub result.point))) fr.outcolour fr.tracelevel true = t at h
    cases t with
    | none => cases h
    | some o =>
      simp only [] at h
      obtain ⟨_, hcalls⟩ := hleaf _ _ _ _ ht
      obtain ⟨cs, h1, h2, h3⟩ := ih _ _ h
      refine ⟨⟨shadowRayFor E result.point lit, fr.outcolour, fr.tracelevel, true, 0⟩ :: cs,
        ?_, ?_, ?_⟩
      · rw [h1, hcalls]
        simp [nested, shadowRayFor, Ray.SetRay]
      · simp only [List.map_cons, h2]
      · intro c hc
        rcases List.mem_cons.mp hc with rfl | hc
        · exact ⟨rfl, rfl⟩
        · exact h3 c hc

/-- The reflection block, run for a non-shadow ray, records no shadow call at depth `0`. -/
theorem reflectionStep_calls (E : Externals) (m_traceflag : Nat) (scene : Scene)
    (trace : Ray → Colour → Int → Bool → Option TraceOut) (result : RayHitResult)
    (prim : Primitive) (fr fr1 : Frame)
    (h : reflectionStep E m_traceflag scene trace result prim false fr = some fr1) :
    ∃ cs, fr1.calls = fr.calls ++ cs ∧
      cs.filter (fun c => c.shadowray && decide (c.depth = 0)) = [] := by
  by_cases hf : flagSet m_traceflag TRACE_REFLECTION = true
  · by_cases hp : prim.m_primtype = PRIMTYPE.PRIMTYPE_Plane
    · simp only [reflectionStep, hf, hp, if_true, ne_eq, not_true_eq_false, if_false,
        Option.some.injEq] at h
      exact ⟨[], by rw [h]; simp, rfl⟩
    · simp only [reflectionStep, hf, hp, if_true, ne_eq, not_false_eq_true] at h
      generalize trace _ fr.outcolour fr.tracelevel false = t at h
      cases t with
      | none => cases h
      | some r =>
        simp only [Option.some.injEq] at h
        refine ⟨_, by rw [← h], ?_⟩
        rw [List.filter_cons_of_neg (by simp), List.filter_eq_nil_iff]
        intro c hc
        simp [nested_depth_pos r.calls c hc]
  · simp only [reflectionStep, hf, Bool.false_eq_true, if_false, Option.some.injEq] at h
    exact ⟨[], by rw [h]; simp, rfl⟩

/-- C15: with SHADOW set, the shadow block records, for every frame it is entered with
(whatever the ray, the running colour and the calls made before) and one stack frame left,
one call per light whose ray has direction `d = normalise(L.position - p)` and origin
`p + 0.0001 d`, `p` being the hit point; and whenever a non-shadow `TraceScene` that hits at
`p` returns, the shadow calls it made itself are exactly these, in the order of the list: the
shadow rays depend on `p` and the light positions alone. -/
theorem TraceScene_shadow_rays (E : Externals) (m_traceflag : Nat) (scene : Scene)
    (stack : Nat) (ray : Ray) (incolour : Colour) (tracelevel : Int) (prim : Primitive)
    (hhit : (scene.IntersectByRay ray false).data = some prim)
    (hshadow : flagSet m_traceflag TRACE_SHADOW = true) :
    let p := (scene.IntersectByRay ray false).point
    let shadowRays : List Ray := scene.lightList.map (fun L =>
      ⟨p.add ((E.Normalise (L.position.sub p)).scale (1/10000)),
       E.Normalise (L.position.sub p)⟩)
    (∀ fr : Frame, ∃ fr1 cs,
      shadowStep E m_traceflag scene (TraceScene E m_traceflag scene (stack + 1))
        (scene.IntersectByRay ray false) fr = some fr1 ∧
      fr1.calls = fr.calls ++ cs ∧ cs.map Call.ray = shadowRays) ∧
    (∀ r, TraceScene E m_traceflag scene (stack + 1) ray incolour tracelevel false = some r →
      (r.calls.filter (fun c => c.shadowray && decide (c.depth = 0))).map Call.ray
        = shadowRays) := by
  intro p shadowRays
  constructor
  · intro fr
    obtain ⟨fr1, cs, h1, h2, h3, _⟩ := shadowLoop_returns E m_traceflag scene stack
      (scene.IntersectByRay ray false) scene.lightList fr
    exact ⟨fr1, cs, by simp only [shadowStep, hshadow, if_true, h1], h2, h3⟩
  · intro r hret
    rw [TraceScene_hit E m_traceflag scene stack ray incolour tracelevel prim hhit] at hret
    cases hl : CalculateLighting E m_traceflag scene.lightList ray.start
        (scene.IntersectByRay ray false) with
    | none => simp [hl] at hret
    | some lit =>
      rw [hl, Option.some_bind] at hret
      cases hr1 : reflectionStep E m_traceflag scene (TraceScene E m_traceflag scene stack)
          (scene.IntersectByRay ray false) prim false ⟨ray, lit, tracelevel, []⟩ with
      | none => simp [hr1] at hret
      | some fr1 =>
        rw [hr1, Option.some_bind] at hret
        simp only [shadowStep, hshadow, if_true] at hret
        cases hs2 : shadowLoop E (TraceScene E m_traceflag scene stack)
            (scene.IntersectByRay ray false) scene.lightList fr1 with
        | none => simp [hs2] at hret
        | some fr2 =>
          rw [hs2] at hret
          simp only [Option.map_some', Option.some.injEq] at hret
          obtain ⟨cs1, g1, g2⟩ := reflectionStep_calls E m_traceflag scene _ _ prim _ _ hr1
          obtain ⟨cs2, k1, k2, k3⟩ := shadowLoop_calls E (TraceScene E m_traceflag scene stack)
            (scene.IntersectByRay ray false)
            (fun a b c o h => TraceScene_shadow_leaf E m_traceflag scene stack a b c o h)
            scene.lightList fr1 fr2 hs2
          have hself : cs2.filter (fun c => c.shadowray && decide (c.depth = 0)) = cs2 := by
            rw [List.filter_eq_self]
            intro c hc
            simp [k3 c hc]
          rw [← hret]
          simp only [k1, g1, List.nil_append, List.filter_append, g2, hself, k2]
          rfl

/-- Witness for C15: the one-sphere scene with two lights, ambient and shadow switched on; the
hit point is the origin and the two shadow calls go from `0.0001 L` towards `L` for the lights
`L = (0, 10, 0)` and `L = (5, 5, 0)`. -/
theorem TraceScene_shadow_rays_witness :
    ∃ r, TraceScene sampleExternals (TRACE_AMBIENT ||| TRACE_SHADOW) oneHitScene 2 sampleRay
        ⟨0, 0, 1⟩ 5 false = some r ∧
      (r.calls.filter (fun c => c.shadowray && decide (c.depth = 0))).map Call.ray
        = [⟨⟨0, 1/1000, 0⟩, ⟨0, 10, 0⟩⟩, ⟨⟨1/2000, 1/2000, 0⟩, ⟨5, 5, 0⟩⟩] := by
  have hf : flagSet (TRACE_AMBIENT ||| TRACE_SHADOW) TRACE_REFLECTION = false := by decide
  have hs : flagSet (TRACE_AMBIENT ||| TRACE_SHADOW) TRACE_SHADOW = true := by decide
  have hd : flagSet (TRACE_AMBIENT ||| TRACE_SHADOW) TRACE_DIFFUSE_AND_SPEC = false := by
    decide
  have hex : TraceScene sampleExternals (TRACE_AMBIENT ||| TRACE_SHADOW) oneHitScene 2 sampleRay
      ⟨0, 0, 1⟩ 5 false =
      some ⟨⟨1, 0, 0⟩, ⟨⟨1/2000, 1/2000, 0⟩, ⟨5, 5, 0⟩⟩,
        [⟨⟨⟨0, 1/1000, 0⟩, ⟨0, 10, 0⟩⟩, ⟨1, 0, 0⟩, 5, true, 0⟩,
         ⟨⟨⟨1/2000, 1/2000, 0⟩, ⟨5, 5, 0⟩⟩, ⟨1, 0, 0⟩, 4, true, 0⟩]⟩ := by
    norm_num [TraceScene, oneHitScene, mirrorScene, sampleRay, sampleCamera, CalculateLighting,
      reflectionStep, shadowStep, shadowLoop, hf, hs, hd, sampleSphere, sampleMaterial,
      Ray.SetRay, Vector3.add, Vector3.scale, Vector3.sub, sampleExternals, nested]
    rfl
  have h := (TraceScene_shadow_rays sampleExternals (TRACE_AMBIENT ||| TRACE_SHADOW) oneHitScene
    1 sampleRay ⟨0, 0, 1⟩ 5 sampleSphere rfl hs).2 _ hex
  refine ⟨_, hex, ?_⟩
  rw [h]
  norm_num [oneHitScene, mirrorScene, sampleRay, sampleCamera, sampleExternals, Vector3.add,
    Vector3.scale, Vector3.sub]

/-! ## The recursive tracer: the colour left by the shadow block -/

/-- Scaling twice is scaling by the product. -/
theorem Vector3.scale_scale (c : Vector3) (a b : ℚ) : (c.scale a).scale b = c.scale (a * b) := by
  simp only [Vector3.scale, Vector3.mk.injEq]
  exact ⟨by ring, by ring, by ring⟩

/-- Scaling by one changes nothing. -/
theorem Vector3.scale_one (c : Vector3) : c.scale 1 = c := by
  simp [Vector3.scale]

/-- One iteration of the shadow loop when a stack frame is left for the shadow call: the
ray becomes the shadow ray of the light, the running colour is scaled by 0.3 if that light is
occluded and kept otherwise, the local budget is decremented and the call is recorded. -/
theorem shadowLoop_cons_shadow (E : Externals) (m_traceflag : Nat) (scene : Scene) (stack : Nat)
    (result : RayHitResult) (lit : Light) (rest : List Light) (fr : Frame) :
    shadowLoop E (TraceScene E m_traceflag scene (stack + 1)) result (lit :: rest) fr
      = shadowLoop E (TraceScene E m_traceflag scene (stack + 1)) result rest
          { ray := shadowRayFor E result.point lit
            outcolour :=
              if occluded E scene result.point lit then fr.outcolour.scale (3/10)
              else fr.outcolour
            tracelevel := fr.tracelevel - 1
            calls := fr.calls ++
              [⟨shadowRayFor E result.point lit, fr.outcolour, fr.tracelevel, true, 0⟩] } := by
  simp [shadowLoop, TraceScene_shadowray, nested, shadowRayFor, Ray.SetRay, occluded]

/-- The shadow loop over a concatenation is the loop over the first list followed by the loop
over the second. -/
theorem shadowLoop_append (E : Externals) (trace : Ray → Colour → Int → Bool → Option TraceOut)
    (result : RayHitResult) :
    ∀ (l1 l2 : List Light) (fr : Frame),
      shadowLoop E trace result (l1 ++ l2) fr
        = (shadowLoop E trace result l1 fr).bind (shadowLoop E trace result l2) := by
  intro l1
  induction l1 with
  | nil =>
    intro l2 fr
    rfl
  | cons a rest ih =>
    intro l2 fr
    simp only [List.cons_append, shadowLoop]
    generalize trace _ fr.outcolour fr.tracelevel true = t
    cases t with
    | none => rfl
    | some o => exact ih l2 _

/-- The colour left by the shadow loop (one stack frame left for its calls): the colour it
started from, scaled by `0.3 ^ k`, `k` being the number of occluded lights. -/
theorem shadowLoop_colour (E : Externals) (m_traceflag : Nat) (scene : Scene) (stack : Nat)
    (result : RayHitResult) :
    ∀ (lights : List Light) (fr : Frame), ∃ fr1,
      shadowLoop E (TraceScene E m_traceflag scene (stack + 1)) result lights fr = some fr1 ∧
      fr1.outcolour
        = fr.outcolour.scale ((3/10) ^ (lights.countP (occluded E scene result.point))) := by
  intro lights
  induction lights with
  | nil =>
    intro fr
    exact ⟨fr, rfl, by simp [Vector3.scale_one]⟩
  | cons lit rest ih =>
    intro fr
    rw [shadowLoop_cons_shadow]
    obtain ⟨fr1, h1, h2⟩ := ih
      { ray := shadowRayFor E result.point lit
        outcolour :=
          if occluded E scene result.point lit then fr.outcolour.scale (3/10)
          else fr.outcolour
        tracelevel := fr.tracelevel - 1
        calls := fr.calls ++
          [⟨shadowRayFor E result.point lit, fr.outcolour, fr.tracelevel, true, 0⟩] }
    refine ⟨fr1, h1, ?_⟩
    rw [h2]
    by_cases hocc : occluded E scene result.point lit = true
    · rw [List.countP_cons_of_pos _ _ hocc]
      simp only [hocc, if_true, Vector3.scale_scale, pow_succ]
      congr 1
      ring
    · rw [List.countP_cons_of_neg _ _ hocc]
      simp only [hocc, Bool.false_eq_true, if_false]

/-- With REFLECTION clear, a non-shadow `TraceScene` that hits a primitive and has a stack
frame left for its shadow calls returns what the shadow block leaves when started from the
local shading colour. -/
theorem TraceScene_without_reflection (E : Externals) (m_traceflag : Nat) (scene : Scene)
    (stack : Nat) (ray : Ray) (incolour : Colour) (tracelevel : Int) (prim : Primitive)
    (lit : Colour)
    (hhit : (scene.IntersectByRay ray false).data = some prim)
    (hnorefl : flagSet m_traceflag TRACE_REFLECTION = false)
    (hlit : CalculateLighting E m_traceflag scene.lightList ray.start
      (scene.IntersectByRay ray false) = some lit) :
    TraceScene E m_traceflag scene (stack + 2) ray incolour tracelevel false
      = (shadowStep E m_traceflag scene (TraceScene E m_traceflag scene (stack + 1))
          (scene.IntersectByRay ray false) ⟨ray, lit, tracelevel, []⟩).map
          (fun fr2 => ⟨fr2.outcolour, fr2.ray, fr2.calls⟩) := by
  rw [TraceScene_hit E m_traceflag scene (stack + 1) ray incolour tracelevel prim hhit, hlit]
  simp only [Option.some_bind, reflectionStep, hnorefl, Bool.false_eq_true, if_false]

/-- C16 (as stated, refuted): with ambient and shadow switched on (REFLECTION clear), the
occluder scene with the light list `[(5, 5, 0), (0, 10, 0)]` and the same scene with the light
list `[(0, 10, 0)]` end in the same light, yet the first returns `(0.3, 0, 0)` and the second
`(1, 0, 0)`: the occluded earlier light has darkened the result. -/
theorem TraceScene_last_light_does_not_decide :
    occluderScene.lightList.getLast? = some ⟨⟨0, 10, 0⟩, ⟨1, 1, 1⟩⟩ ∧
    ([⟨⟨0, 10, 0⟩, ⟨1, 1, 1⟩⟩] : List Light).getLast? = some ⟨⟨0, 10, 0⟩, ⟨1, 1, 1⟩⟩ ∧
    (TraceScene sampleExternals (TRACE_AMBIENT ||| TRACE_SHADOW) occluderScene 2 sampleRay
      ⟨0, 0, 1⟩ 5 false).map TraceOut.colour = some ⟨3/10, 0, 0⟩ ∧
    (TraceScene sampleExternals (TRACE_AMBIENT ||| TRACE_SHADOW)
      { occluderScene with lightList := [⟨⟨0, 10, 0⟩, ⟨1, 1, 1⟩⟩] } 2 sampleRay
      ⟨0, 0, 1⟩ 5 false).map TraceOut.colour = some ⟨1, 0, 0⟩ := by
  have hf : flagSet (TRACE_AMBIENT ||| TRACE_SHADOW) TRACE_REFLECTION = false := by decide
  have hs : flagSet (TRACE_AMBIENT ||| TRACE_SHADOW) TRACE_SHADOW = true := by decide
  have hd : flagSet (TRACE_AMBIENT ||| TRACE_SHADOW) TRACE_DIFFUSE_AND_SPEC = false := by
    decide
  have hne : PRIMTYPE.PRIMTYPE_Sphere ≠ PRIMTYPE.PRIMTYPE_Plane := by decide
  refine ⟨rfl, rfl, ?_, ?_⟩
  · norm_num [TraceScene, occluderScene, mirrorScene, sampleRay, sampleCamera,
      CalculateLighting, reflectionStep, shadowStep, shadowLoop, hf, hs, hd, hne, sampleSphere,
      sampleMaterial, Ray.SetRay, Vector3.add, Vector3.scale, Vector3.sub, sampleExternals,
      nested]
  · norm_num [TraceScene, occluderScene, mirrorScene, sampleRay, sampleCamera,
      CalculateLighting, reflectionStep, shadowStep, shadowLoop, hf, hs, hd, hne, sampleSphere,
      sampleMaterial, Ray.SetRay, Vector3.add, Vector3.scale, Vector3.sub, sampleExternals,
      nested]

/-- C16 (amended): with SHADOW set and REFLECTION clear, for a non-shadow ray hitting a
primitive and a light list `earlier ++ [last]`, each light's shadow trace is handed the
running colour as its fallback and its result replaces the running colour, so the last light
decides the last factor only: the returned colour is the running colour `fr.outcolour` left by
the loop over the earlier lights, scaled by 0.3 if the last light's shadow ray hits a primitive
and unchanged otherwise; and that running colour is the local shading colour scaled by
`0.3 ^ k`, `k` being the number of occluded earlier lights. -/
theorem TraceScene_last_light_factor (E : Externals) (m_traceflag : Nat) (scene : Scene)
    (stack : Nat) (ray : Ray) (incolour : Colour) (tracelevel : Int) (prim : Primitive)
    (lit : Colour) (earlier : List Light) (last : Light)
    (hhit : (scene.IntersectByRay ray false).data = some prim)
    (hshadow : flagSet m_traceflag TRACE_SHADOW = true)
    (hnorefl : flagSet m_traceflag TRACE_REFLECTION = false)
    (hlit : CalculateLighting E m_traceflag scene.lightList ray.start
      (scene.IntersectByRay ray false) = some lit)
    (hlights : scene.lightList = earlier ++ [last]) :
    ∃ fr r,
      shadowLoop E (TraceScene E m_traceflag scene (stack + 1)) (scene.IntersectByRay ray false)
        earlier ⟨ray, lit, tracelevel, []⟩ = some fr ∧
      fr.outcolour = lit.scale ((3/10) ^
        (earlier.countP (occluded E scene (scene.IntersectByRay ray false).point))) ∧
      TraceScene E m_traceflag scene (stack + 2) ray incolour tracelevel false = some r ∧
      r.colour =
        (if (scene.IntersectByRay
              (shadowRayFor E (scene.IntersectByRay ray false).point last) true).data.isSome
         then fr.outcolour.scale (3/10) else fr.outcolour) := by
  obtain ⟨fr, h1, h2⟩ := shadowLoop_colour E m_traceflag scene stack
    (scene.IntersectByRay ray false) earlier ⟨ray, lit, tracelevel, []⟩
  refine ⟨fr,
    ⟨if occluded E scene (scene.IntersectByRay ray false).point last
        then fr.outcolour.scale (3/10) else fr.outcolour,
      shadowRayFor E (scene.IntersectByRay ray false).point last,
      fr.calls ++ [⟨shadowRayFor E (scene.IntersectByRay ray false).point last, fr.outcolour,
        fr.tracelevel, true, 0⟩]⟩, h1, h2, ?_, ?_⟩
  · rw [TraceScene_without_reflection E m_traceflag scene stack ray incolour tracelevel prim
      lit hhit hnorefl hlit]
    simp only [shadowStep, hshadow, if_true, hlights]
    rw [shadowLoop_append, h1, Option.some_bind, shadowLoop_cons_shadow]
    rfl
  · rfl

/-- Witness for C16 (amended): the occluder scene, whose earlier light `(5, 5, 0)` is occluded
and whose last light `(0, 10, 0)` is not. -/
theorem TraceScene_last_light_factor_witness :
    ∃ fr r,
      shadowLoop sampleExternals
        (TraceScene sampleExternals (TRACE_AMBIENT ||| TRACE_SHADOW) occluderScene 1)
        (occluderScene.IntersectByRay sampleRay false) [⟨⟨5, 5, 0⟩, ⟨1, 1, 1⟩⟩]
        ⟨sampleRay, ⟨1, 0, 0⟩, 5, []⟩ = some fr ∧
      fr.outcolour = Vector3.scale ⟨1, 0, 0⟩ ((3/10) ^
        (List.countP (occluded sampleExternals occluderScene
          (occluderScene.IntersectByRay sampleRay false).point) [⟨⟨5, 5, 0⟩, ⟨1, 1, 1⟩⟩])) ∧
      TraceScene sampleExternals (TRACE_AMBIENT ||| TRACE_SHADOW) occluderScene 2 sampleRay
        ⟨0, 0, 1⟩ 5 false = some r ∧
      r.colour =
        (if (occluderScene.IntersectByRay
              (shadowRayFor sampleExternals (occluderScene.IntersectByRay sampleRay false).point
                ⟨⟨0, 10, 0⟩, ⟨1, 1, 1⟩⟩) true).data.isSome
         then fr.outcolour.scale (3/10) else fr.outcolour) :=
  TraceScene_last_light_factor sampleExternals (TRACE_AMBIENT ||| TRACE_SHADOW) occluderScene 0
    sampleRay ⟨0, 0, 1⟩ 5 sampleSphere ⟨1, 0, 0⟩ [⟨⟨5, 5, 0⟩, ⟨1, 1, 1⟩⟩] ⟨⟨0, 10, 0⟩, ⟨1, 1, 1⟩⟩
    rfl (by decide) (by decide)
    (by
      have hd : flagSet (TRACE_AMBIENT ||| TRACE_SHADOW) TRACE_DIFFUSE_AND_SPEC = false := by
        decide
      simp [CalculateLighting, occluderScene, mirrorScene, sampleRay, sampleSphere,
        sampleMaterial, sampleCamera, hd])
    rfl

/-! ## The depth budget has no effect -/

/-- Nesting the calls of a callee commutes with forgetting their budgets. -/
theorem nested_withoutLevel (cs : List Call) :
    (nested cs).map Call.withoutLevel
      = (cs.map Call.withoutLevel).map (fun q => (q.1, q.2.1, q.2.2.1, q.2.2.2 + 1)) := by
  simp [nested, List.map_map, Function.comp, Call.withoutLevel]

/-- The reflection block when REFLECTION is set and the primitive is not a plane, as one
expression. -/
theorem reflectionStep_eq (E : Externals) (m_traceflag : Nat) (scene : Scene)
    (trace : Ray → Colour → Int → Bool → Option TraceOut) (result : RayHitResult)
    (prim : Primitive) (shadowray : Bool) (fr : Frame)
    (hrefl : flagSet m_traceflag TRACE_REFLECTION = true)
    (hnotplane : prim.m_primtype ≠ PRIMTYPE.PRIMTYPE_Plane) :
    reflectionStep E m_traceflag scene trace result prim shadowray fr =
      (trace ⟨result.point, scene.camera.position.add
          ((E.Reflect fr.ray.direction result.normal).scale
            ((-7/2) * scene.camera.position.DotProduct scene.camera.view))⟩
        fr.outcolour fr.tracelevel shadowray).map (fun r =>
          { ray := r.ray
            outcolour := fr.outcolour.mul r.colour
            tracelevel := fr.tracelevel - 1
            calls := fr.calls ++
              (⟨⟨result.point, scene.camera.position.add
                  ((E.Reflect fr.ray.direction result.normal).scale
                    ((-7/2) * scene.camera.position.DotProduct scene.camera.view))⟩,
                fr.outcolour, fr.tracelevel, shadowray, 0⟩ :: nested r.calls) }) := by
  simp only [reflectionStep, hrefl, hnotplane, if_true, ne_eq, not_false_eq_true, Ray.SetRay]
  generalize trace _ fr.outcolour fr.tracelevel shadowray = t
  cases t <;> rfl

/-- One iteration of the shadow loop, as one expression. -/
theorem shadowLoop_cons_eq (E : Externals) (trace : Ray → Colour → Int → Bool → Option TraceOut)
    (result : RayHitResult) (lit : Light) (rest : List Light) (fr : Frame) :
    shadowLoop E trace result (lit :: rest) fr =
      (trace (shadowRayFor E result.point lit) fr.outcolour fr.tracelevel true).bind (fun r =>
        shadowLoop E trace result rest
          { ray := r.ray
            outcolour := r.colour
            tracelevel := fr.tracelevel - 1
            calls := fr.calls ++
              (⟨shadowRayFor E result.point lit, fr.outcolour, fr.tracelevel, true, 0⟩ ::
                nested r.calls) }) := by
  simp only [shadowLoop, Ray.SetRay, shadowRayFor]
  generalize trace _ fr.outcolour fr.tracelevel true = t
  cases t <;> rfl

/-- The reflection block does not look at depth budgets: if the recursive tracer gives the
same outcome (budgets apart) for any two budgets, so does the block, for two frames that
differ in budgets only. -/
theorem reflectionStep_level_free (E : Externals) (m_traceflag : Nat) (scene : Scene)
    (trace : Ray → Colour → Int → Bool → Option TraceOut)
    (htrace : ∀ ray c l1 l2 s, (trace ray c l1 s).map TraceOut.withoutLevels
      = (trace ray c l2 s).map TraceOut.withoutLevels)
    (result : RayHitResult) (prim : Primitive) (shadowray : Bool) (ray : Ray) (col : Colour)
    (l1 l2 : Int) (cs1 cs2 : List Call)
    (hcs : cs1.map Call.withoutLevel = cs2.map Call.withoutLevel) :
    (reflectionStep E m_traceflag scene trace result prim shadowray ⟨ray, col, l1, cs1⟩).map
        Frame.withoutLevels
      = (reflectionStep E m_traceflag scene trace result prim shadowray ⟨ray, col, l2, cs2⟩).map
        Frame.withoutLevels := by
  by_cases hf : flagSet m_traceflag TRACE_REFLECTION = true
  · by_cases hp : prim.m_primtype = PRIMTYPE.PRIMTYPE_Plane
    · simp only [reflectionStep, hf, hp, if_true, ne_eq, not_true_eq_false, if_false,
        Option.map_some', Frame.withoutLevels, hcs]
    · rw [reflectionStep_eq _ _ _ _ _ _ _ _ hf hp, reflectionStep_eq _ _ _ _ _ _ _ _ hf hp]
      have h := htrace ⟨result.point, scene.camera.position.add
          ((E.Reflect ray.direction result.normal).scale
            ((-7/2) * scene.camera.position.DotProduct scene.camera.view))⟩ col l1 l2 shadowray
      dsimp only
      revert h
      generalize trace _ col l1 shadowray = t1
      generalize trace _ col l2 shadowray = t2
      intro h
      cases t1 with
      | none =>
        cases t2 with
        | none => rfl
        | some r2 => simp at h
      | some r1 =>
        cases t2 with
        | none => simp at h
        | some r2 =>
          simp only [Option.map_some', Option.some.injEq, TraceOut.withoutLevels,
            Prod.mk.injEq] at h
          obtain ⟨hc, hr, hcalls⟩ := h
          simp only [Option.map_some', Frame.withoutLevels, hc, hr, List.map_append, hcs,
            List.map_cons, Call.withoutLevel, nested_withoutLevel, hcalls]
  · simp only [reflectionStep, hf, Bool.false_eq_true, if_false, Option.map_some',
      Frame.withoutLevels, hcs]

/-- The shadow loop does not look at depth budgets either. -/
theorem shadowLoop_level_free (E : Externals)
    (trace : Ray → Colour → Int → Bool → Option TraceOut)
    (htrace : ∀ ray c l1 l2 s, (trace ray c l1 s).map TraceOut.withoutLevels
      = (trace ray c l2 s).map TraceOut.withoutLevels)
    (result : RayHitResult) :
    ∀ (lights : List Light) (ray : Ray) (col : Colour) (l1 l2 : Int) (cs1 cs2 : List Call),
      cs1.map Call.withoutLevel = cs2.map Call.withoutLevel →
      (shadowLoop E trace result lights ⟨ray, col, l1, cs1⟩).map Frame.withoutLevels
        = (shadowLoop E trace result lights ⟨ray, col, l2, cs2⟩).map Frame.withoutLevels := by
  intro lights
  induction lights with
  | nil =>
    intro ray col l1 l2 cs1 cs2 hcs
    simp only [shadowLoop, Option.map_some', Frame.withoutLevels, hcs]
  | cons lit rest ih =>
    intro ray col l1 l2 cs1 cs2 hcs
    rw [shadowLoop_cons_eq, shadowLoop_cons_eq]
    have h := htrace (shadowRayFor E result.point lit) col l1 l2 true
    dsimp only
    revert h
    generalize trace _ col l1 true = t1
    generalize trace _ col l2 true = t2
    intro h
    cases t1 with
    | none =>
      cases t2 with
      | none => rfl
      | some r2 => simp at h
    | some r1 =>
      cases t2 with
      | none => simp at h
      | some r2 =>
        simp only [Option.map_some', Option.some.injEq, TraceOut.withoutLevels,
          Prod.mk.injEq] at h
        obtain ⟨hc, hr, hcalls⟩ := h
        simp only [Option.some_bind, hc, hr]
        apply ih
        simp only [List.map_append, hcs, List.map_cons, Call.withoutLevel, nested_withoutLevel,
          hcalls]

/-- The outcome of `TraceScene`, budgets apart, is the same for any two depth budgets. -/
theorem TraceScene_level_free (E : Externals) (m_traceflag : Nat) (scene : Scene) :
    ∀ (stack : Nat) (ray : Ray) (incolour : Colour) (d1 d2 : Int) (shadowray : Bool),
      (TraceScene E m_traceflag scene stack ray incolour d1 shadowray).map
          TraceOut.withoutLevels
        = (TraceScene E m_traceflag scene stack ray incolour d2 shadowray).map
          TraceOut.withoutLevels := by
  intro stack
  induction stack with
  | zero =>
    intro ray incolour d1 d2 shadowray
    rfl
  | succ n ih =>
    intro ray incolour d1 d2 shadowray
    cases shadowray with
    | true => rw [TraceScene_shadowray, TraceScene_shadowray]
    | false =>
      cases hdata : (scene.IntersectByRay ray false).data with
      | none => simp only [TraceScene, hdata]
      | some prim =>
        rw [TraceScene_hit E m_traceflag scene n ray incolour d1 prim hdata,
          TraceScene_hit E m_traceflag scene n ray incolour d2 prim hdata]
        cases CalculateLighting E m_traceflag scene.lightList ray.start
            (scene.IntersectByRay ray false) with
        | none => rfl
        | some lit =>
          simp only [Option.some_bind]
          have h1 := reflectionStep_level_free E m_traceflag scene
            (TraceScene E m_traceflag scene n) ih (scene.IntersectByRay ray false) prim false
            ray lit d1 d2 [] [] rfl
          revert h1
          generalize reflectionStep E m_traceflag scene (TraceScene E m_traceflag scene n)
            (scene.IntersectByRay ray false) prim false ⟨ray, lit, d1, []⟩ = a1
          generalize reflectionStep E m_traceflag scene (TraceScene E m_traceflag scene n)
            (scene.IntersectByRay ray false) prim false ⟨ray, lit, d2, []⟩ = a2
          intro h1
          cases a1 with
          | none =>
            cases a2 with
            | none => rfl
            | some f2 => simp at h1
          | some f1 =>
            cases a2 with
            | none => simp at h1
            | some f2 =>
              obtain ⟨ray1, col1, lv1, calls1⟩ := f1
              obtain ⟨ray2, col2, lv2, calls2⟩ := f2
              simp only [Option.map_some', Option.some.injEq, Frame.withoutLevels,
                Prod.mk.injEq] at h1
              obtain ⟨hray, hcol, hcalls⟩ := h1
              subst hray hcol
              simp only [Option.some_bind, shadowStep]
              by_cases hs : flagSet m_traceflag TRACE_SHADOW = true
              · simp only [hs, if_true]
                have h2 := shadowLoop_level_free E (TraceScene E m_traceflag scene n) ih
                  (scene.IntersectByRay ray false) scene.lightList ray1 col1 lv1 lv2 calls1
                  calls2 hcalls
                revert h2
                generalize shadowLoop E (TraceScene E m_traceflag scene n)
                  (scene.IntersectByRay ray false) scene.lightList ⟨ray1, col1, lv1, calls1⟩ = b1
                generalize shadowLoop E (TraceScene E m_traceflag scene n)
                  (scene.IntersectByRay ray false) scene.lightList ⟨ray1, col1, lv2, calls2⟩ = b2
                intro h2
                cases b1 with
                | none =>
                  cases b2 with
                  | none => rfl
                  | some g2 => simp at h2
                | some g1 =>
                  cases b2 with
                  | none => simp at h2
                  | some g2 =>
                    simp only [Option.map_some', Option.some.injEq, Frame.withoutLevels,
                      Prod.mk.injEq] at h2
                    obtain ⟨gray, gcol, gcalls⟩ := h2
                    simp only [Option.map_some', TraceOut.withoutLevels, gray, gcol, gcalls]
              · simp only [hs, Bool.false_eq_true, if_false, Option.map_some',
                  TraceOut.withoutLevels, hcalls]

/-- Two loops whose bodies agree on a projection of the state, started from states with the
same projection, end (or fail) with the same projection. -/
theorem foldlM_proj {σ α β : Type} (p : σ → β) (f g : σ → α → Option σ)
    (hbody : ∀ s s1 a, p s = p s1 → (f s a).map p = (g s1 a).map p) :
    ∀ (l : List α) (s s1 : σ), p s = p s1 →
      (l.foldlM f s).map p = (l.foldlM g s1).map p := by
  intro l
  induction l with
  | nil =>
    intro s s1 h
    simp [h]
  | cons a rest ih =>
    intro s s1 h
    rw [List.foldlM_cons, List.foldlM_cons]
    have hb := hbody s s1 a h
    revert hb
    generalize f s a = t
    generalize g s1 a = t1
    intro hb
    cases t with
    | none =>
      cases t1 with
      | none => rfl
      | some u1 => simp at hb
    | some u =>
      cases t1 with
      | none => simp at hb
      | some u1 =>
        simp only [Option.map_some', Option.some.injEq] at hb
        exact ih u u1 hb

/-- The pixel body writes the same colour whatever trace level the tracer is configured
with. -/
theorem pixelBody_level_free (E : Externals) (stack : Nat) (rt : RayTracer) (level : Int)
    (scene : Scene) (i j : Int) (st st1 : RenderState) (hfb : st.fb = st1.fb) :
    (pixelBody E stack (rt.SetTraceLevel level) scene i j st).map RenderState.fb
      = (pixelBody E stack rt scene i j st1).map RenderState.fb := by
  have h := TraceScene_level_free E rt.m_traceflag scene stack (viewRay E rt scene i j)
    scene.backgroundColour level rt.m_traceLevel false
  have hray : viewRay E (rt.SetTraceLevel level) scene i j = viewRay E rt scene i j := rfl
  have hflag : (rt.SetTraceLevel level).m_traceflag = rt.m_traceflag := rfl
  have hlev : (rt.SetTraceLevel level).m_traceLevel = level := rfl
  simp only [pixelBody, hray, hflag, hlev, hfb]
  revert h
  generalize TraceScene E rt.m_traceflag scene stack (viewRay E rt scene i j)
    scene.backgroundColour level false = t
  generalize TraceScene E rt.m_traceflag scene stack (viewRay E rt scene i j)
    scene.backgroundColour rt.m_traceLevel false = t1
  intro h
  cases t with
  | none =>
    cases t1 with
    | none => rfl
    | some r1 => simp at h
  | some r =>
    cases t1 with
    | none => simp at h
    | some r1 =>
      simp only [Option.map_some', Option.some.injEq, TraceOut.withoutLevels,
        Prod.mk.injEq] at h
      cases st1.fb with
      | none => rfl
      | some fb => simp only [Option.map_some', h.1]

/-- C19: the outcome of `TraceScene` does not depend on its `tracelevel` argument. For every
scene, ray, fallback colour, shadow flag, flag mask and stack bound, and any two depth budgets,
the two runs either both fail to return or both return, with the same colour, the same final
ray and the same recursive calls in the same order (each call with the same ray, fallback
colour and shadow flag, hence the same sequence of intersection queries). Hence
`SetTraceLevel` has no effect on what `DoRayTrace` leaves in the framebuffer and the render
count. -/
theorem TraceScene_ignores_tracelevel (E : Externals) (m_traceflag : Nat) (scene : Scene)
    (stack : Nat) (ray : Ray) (incolour : Colour) (shadowray : Bool) (d1 d2 : Int) :
    (TraceScene E m_traceflag scene stack ray incolour d1 shadowray).map TraceOut.withoutLevels
      = (TraceScene E m_traceflag scene stack ray incolour d2 shadowray).map
          TraceOut.withoutLevels ∧
    (∀ (rt : RayTracer) (level : Int),
      (DoRayTrace E stack (rt.SetTraceLevel level) scene).map
          (fun out => (out.1.m_framebuffer, out.1.m_renderCount))
        = (DoRayTrace E stack rt scene).map
          (fun out => (out.1.m_framebuffer, out.1.m_renderCount))) := by
  refine ⟨TraceScene_level_free E m_traceflag scene stack ray incolour d1 d2 shadowray, ?_⟩
  intro rt level
  by_cases h0 : rt.m_renderCount = 0
  · have hloop : (forLoop (rt.SetTraceLevel level).m_buffHeight
        (fun i => forLoop (rt.SetTraceLevel level).m_buffWidth
          (fun j => pixelBody E stack (rt.SetTraceLevel level) scene i j))
        (⟨(rt.SetTraceLevel level).m_framebuffer, []⟩ : RenderState)).map RenderState.fb
        = (forLoop rt.m_buffHeight
          (fun i => forLoop rt.m_buffWidth (fun j => pixelBody E stack rt scene i j))
          (⟨rt.m_framebuffer, []⟩ : RenderState)).map RenderState.fb :=
      foldlM_proj RenderState.fb
        (fun (st : RenderState) (i : Nat) => forLoop (rt.SetTraceLevel level).m_buffWidth
          (fun j => pixelBody E stack (rt.SetTraceLevel level) scene (i : Int) j) st)
        (fun (st : RenderState) (i : Nat) => forLoop rt.m_buffWidth
          (fun j => pixelBody E stack rt scene (i : Int) j) st)
        (fun s s1 i hs => foldlM_proj RenderState.fb
          (fun (st : RenderState) (k : Nat) =>
            pixelBody E stack (rt.SetTraceLevel level) scene (i : Int) (k : Int) st)
          (fun (st : RenderState) (k : Nat) =>
            pixelBody E stack rt scene (i : Int) (k : Int) st)
          (fun t t1 k ht => pixelBody_level_free E stack rt level scene i k t t1 ht)
          (List.range rt.m_buffWidth.toNat) s s1 hs)
        (List.range rt.m_buffHeight.toNat) ⟨rt.m_framebuffer, []⟩ ⟨rt.m_framebuffer, []⟩ rfl
    have hc : (rt.SetTraceLevel level).m_renderCount = 0 := h0
    simp only [DoRayTrace, hc, h0, if_true]
    revert hloop
    generalize forLoop (rt.SetTraceLevel level).m_buffHeight
      (fun i => forLoop (rt.SetTraceLevel level).m_buffWidth
        (fun j => pixelBody E stack (rt.SetTraceLevel level) scene i j))
      (⟨(rt.SetTraceLevel level).m_framebuffer, []⟩ : RenderState) = a
    generalize forLoop rt.m_buffHeight
      (fun i => forLoop rt.m_buffWidth (fun j => pixelBody E stack rt scene i j))
      (⟨rt.m_framebuffer, []⟩ : RenderState) = b
    intro hloop
    cases a with
    | none =>
      cases b with
      | none => rfl
      | some sb => simp at hloop
    | some sa =>
      cases b with
      | none => simp at hloop
      | some sb =>
        simp only [Option.map_some', Option.some.injEq] at hloop
        simp only [Option.map_some', hloop, RayTracer.SetTraceLevel]
  · have hc : (rt.SetTraceLevel level).m_renderCount ≠ 0 := h0
    simp only [DoRayTrace, hc, h0, if_false, Option.map_some', RayTracer.SetTraceLevel]

/-! ## The directions of the rays handed to the intersection provider -/

/-- C13 (the code at a failing input): in the one-sphere scene with ambient and reflection
switched on, the primary ray `(0,0,-10) → (0,0,1)` has a unit direction and hits a unit normal,
yet the one recursive call made, the reflection call, hands the intersection provider a ray of
direction `(0, 0, -45)`, whose squared length is `2025`, not `1`: the reflection block passes
`cameraPosition + Reflect(direction, normal) * (-3.5 * dot(cameraPosition, cameraView))` to
`SetRay` without the `Normalise()` that the primary-ray and shadow-ray paths apply. -/
theorem reflection_ray_not_unit :
    sampleRay.direction.DotProduct sampleRay.direction = 1 ∧
    (TraceScene sampleExternals (TRACE_AMBIENT ||| TRACE_REFLECTION) oneHitScene 2 sampleRay
        ⟨0, 0, 1⟩ 5 false).map
        (fun r => r.calls.map (fun c =>
          (c.shadowray, c.ray.direction, c.ray.direction.DotProduct c.ray.direction)))
      = some [(false, ⟨0, 0, -45⟩, 2025)] := by
  have hf : flagSet (TRACE_AMBIENT ||| TRACE_REFLECTION) TRACE_REFLECTION = true := by decide
  have hs : flagSet (TRACE_AMBIENT ||| TRACE_REFLECTION) TRACE_SHADOW = false := by decide
  have hd : flagSet (TRACE_AMBIENT ||| TRACE_REFLECTION) TRACE_DIFFUSE_AND_SPEC = false := by
    decide
  have hne : PRIMTYPE.PRIMTYPE_Sphere ≠ PRIMTYPE.PRIMTYPE_Plane := by decide
  constructor
  · norm_num [sampleRay, Vector3.DotProduct]
  · norm_num [TraceScene, oneHitScene, mirrorScene, sampleRay, sampleCamera, CalculateLighting,
      reflectionStep, shadowStep, shadowLoop, hf, hs, hd, hne, sampleSphere, sampleMaterial,
      Ray.SetRay, Vector3.add, Vector3.scale, Vector3.sub, Vector3.DotProduct, sampleExternals,
      nested]

end Raytracer3D
